import Mathlib

/-!
# Verification of the scotland-mansion-tax allocation engine

Shallow embedding of `src/scotland_mansion_tax/analysis.py` and the parts of
`src/scotland_mansion_tax/data.py` and `src/scotland_mansion_tax/cli.py` that the
verified properties depend on.

Modelling conventions:
* Python floats are modelled as exact rationals (`ℚ`); the spec's tolerances
  (1e-3, 1 %, "within rounding") absorb the difference between ideal and IEEE
  arithmetic.
* `pandas.DataFrame` inputs are modelled as association lists.  The population
  table becomes `List (String × ℚ)` (constituency, population); a Python dict
  becomes an association list looked up with `List.find?` (keys are unique in
  every dict the program builds, so first-match lookup coincides with dict
  lookup).
* Python's `round` (and pandas `.round`) round half to even; they are modelled
  exactly by `roundHalfEven` / `pyRound` below.
* `analyze_constituencies` in the source loads its data and then computes the
  result table; here the loading is factored out, so the row computation takes
  the loaded population table, wealth-factor mapping and wealth-data-source tag
  as arguments.  The final presentation-only `sort_values` (a permutation of
  the rows) is omitted; every verified property is invariant under row order.
-/

set_option maxRecDepth 1000000

abbrev PopTable := List (String × ℚ)

abbrev WealthFactors := List (String × ℚ)

/-- `CONSTITUENCY_COUNCIL_MAPPING` from `analysis.py` (lines 81-185):
constituency → council, in the source's insertion order. -/
def CONSTITUENCY_COUNCIL_MAPPING : List (String × String) := [
  ("Edinburgh Central", "City of Edinburgh"),
  ("Edinburgh Western", "City of Edinburgh"),
  ("Edinburgh Southern", "City of Edinburgh"),
  ("Edinburgh Pentlands", "City of Edinburgh"),
  ("Edinburgh Northern and Leith", "City of Edinburgh"),
  ("Edinburgh Eastern", "City of Edinburgh"),
  ("East Lothian", "East Lothian"),
  ("North East Fife", "Fife"),
  ("Dunfermline", "Fife"),
  ("Cowdenbeath", "Fife"),
  ("Kirkcaldy", "Fife"),
  ("Mid Fife and Glenrothes", "Fife"),
  ("Strathkelvin and Bearsden", "East Dunbartonshire"),
  ("Aberdeen Central", "Aberdeen City"),
  ("Aberdeen Donside", "Aberdeen City"),
  ("Aberdeen South and North Kincardine", "Aberdeen City"),
  ("Aberdeenshire West", "Aberdeenshire"),
  ("Aberdeenshire East", "Aberdeenshire"),
  ("Banffshire and Buchan Coast", "Aberdeenshire"),
  ("Glasgow Kelvin", "Glasgow City"),
  ("Glasgow Cathcart", "Glasgow City"),
  ("Glasgow Anniesland", "Glasgow City"),
  ("Glasgow Southside", "Glasgow City"),
  ("Glasgow Pollok", "Glasgow City"),
  ("Glasgow Maryhill and Springburn", "Glasgow City"),
  ("Glasgow Provan", "Glasgow City"),
  ("Glasgow Shettleston", "Glasgow City"),
  ("Rutherglen", "Glasgow City"),
  ("Perthshire North", "Perth and Kinross"),
  ("Perthshire South and Kinross-shire", "Perth and Kinross"),
  ("Stirling", "Stirling"),
  ("Inverness and Nairn", "Highland"),
  ("Caithness, Sutherland and Ross", "Highland"),
  ("Skye, Lochaber and Badenoch", "Highland"),
  ("Eastwood", "East Renfrewshire"),
  ("Ettrick, Roxburgh and Berwickshire", "Scottish Borders"),
  ("Midlothian South, Tweeddale and Lauderdale", "Scottish Borders"),
  ("Ayr", "South Ayrshire"),
  ("Carrick, Cumnock and Doon Valley", "South Ayrshire"),
  ("Argyll and Bute", "Argyll and Bute"),
  ("Midlothian North and Musselburgh", "Midlothian"),
  ("Linlithgow", "West Lothian"),
  ("Almond Valley", "West Lothian"),
  ("East Kilbride", "South Lanarkshire"),
  ("Clydesdale", "South Lanarkshire"),
  ("Hamilton, Larkhall and Stonehouse", "South Lanarkshire"),
  ("Uddingston and Bellshill", "South Lanarkshire"),
  ("Motherwell and Wishaw", "North Lanarkshire"),
  ("Airdrie and Shotts", "North Lanarkshire"),
  ("Coatbridge and Chryston", "North Lanarkshire"),
  ("Cumbernauld and Kilsyth", "North Lanarkshire"),
  ("Paisley", "Renfrewshire"),
  ("Renfrewshire North and West", "Renfrewshire"),
  ("Renfrewshire South", "Renfrewshire"),
  ("Greenock and Inverclyde", "Inverclyde"),
  ("Falkirk East", "Falkirk"),
  ("Falkirk West", "Falkirk"),
  ("Clackmannanshire and Dunblane", "Clackmannanshire"),
  ("Dumfriesshire", "Dumfries and Galloway"),
  ("Galloway and West Dumfries", "Dumfries and Galloway"),
  ("Dundee City East", "Dundee City"),
  ("Dundee City West", "Dundee City"),
  ("Angus North and Mearns", "Angus"),
  ("Angus South", "Angus"),
  ("Moray", "Moray"),
  ("Cunninghame North", "North Ayrshire"),
  ("Cunninghame South", "North Ayrshire"),
  ("Kilmarnock and Irvine Valley", "East Ayrshire"),
  ("Dumbarton", "West Dunbartonshire"),
  ("Clydebank and Milngavie", "West Dunbartonshire"),
  ("Na h-Eileanan an Iar", "Eilean Siar"),
  ("Orkney Islands", "Orkney Islands"),
  ("Shetland Islands", "Shetland Islands")]

/-- `COUNCIL_DATA` from `analysis.py` (lines 45-78): council-level £1m+ sales
estimates, in the source's insertion order. -/
def COUNCIL_DATA : List (String × ℚ) := [
  ("City of Edinburgh", 200),
  ("East Lothian", 35),
  ("Fife", 30),
  ("East Dunbartonshire", 25),
  ("Aberdeen City", 20),
  ("Aberdeenshire", 15),
  ("Glasgow City", 15),
  ("Perth and Kinross", 12),
  ("Stirling", 10),
  ("Highland", 10),
  ("East Renfrewshire", 10),
  ("Scottish Borders", 8),
  ("South Ayrshire", 7),
  ("Argyll and Bute", 6),
  ("Midlothian", 5),
  ("West Lothian", 5),
  ("South Lanarkshire", 3),
  ("North Lanarkshire", 2),
  ("Renfrewshire", 2),
  ("Inverclyde", 1),
  ("Falkirk", 1),
  ("Clackmannanshire", 1),
  ("Dumfries and Galloway", 1),
  ("Dundee City", 1),
  ("Angus", 1),
  ("Moray", 1),
  ("North Ayrshire", 1),
  ("West Dunbartonshire", 1),
  ("East Ayrshire", 0),
  ("Eilean Siar", 0),
  ("Orkney Islands", 0),
  ("Shetland Islands", 0)]

/-- `BAND_I_SURCHARGE` (analysis.py line 27). -/
def BAND_I_SURCHARGE : ℚ := 1500

/-- `BAND_J_SURCHARGE` (analysis.py line 28). -/
def BAND_J_SURCHARGE : ℚ := 2500

/-- `ESTIMATED_STOCK` (analysis.py line 32). -/
def ESTIMATED_STOCK : ℚ := 11481

/-- `BAND_I_RATIO` (analysis.py line 37). -/
def BAND_I_RATIO : ℚ := 416 / 466

/-- `BAND_J_RATIO` (analysis.py line 38). -/
def BAND_J_RATIO : ℚ := 50 / 466

/-- `ROS_REPORTED_TOTAL` (analysis.py line 43). -/
def ROS_REPORTED_TOTAL : ℚ := 391

/-- `EXPECTED_CONSTITUENCIES` (analysis.py line 188). -/
def EXPECTED_CONSTITUENCIES : ℕ := 73

/-- Python dict lookup `d.get(k, dflt)` on an association list. -/
def dictGet (d : List (String × ℚ)) (k : String) (dflt : ℚ) : ℚ :=
  match d.find? (fun r => r.1 == k) with
  | some r => r.2
  | none => dflt

/-- Population lookup in `calculate_wealth_adjusted_weights` (analysis.py
lines 217-223): first row of the population table whose `constituency` column
equals the name, defaulting to 75000 when no row matches. -/
def lookupPopulation (popT : PopTable) (c : String) : ℚ :=
  match popT.find? (fun r => r.1 == c) with
  | some r => r.2
  | none => 75000

/-- `adjusted_value = pop * wealth_factor` (analysis.py line 229), with the
dict default `wealth_factors.get(constituency, 1.0)` (line 226). -/
def adjustedValue (popT : PopTable) (wfT : WealthFactors) (c : String) : ℚ :=
  lookupPopulation popT c * dictGet wfT c 1

/-- The distinct councils of a constituency → council mapping, in order of
first appearance; this is the key order of the Python dict `council_data`
built in `calculate_wealth_adjusted_weights` (lines 211-214). -/
def councilsIn (mapping : List (String × String)) : List String :=
  mapping.foldl (fun acc p => if acc.contains p.2 then acc else acc ++ [p.2]) []

/-- The constituencies mapped to a given council, in mapping order; this is
the per-council list `council_data[council]` (line 231). -/
def constituenciesOf (mapping : List (String × String)) (council : String) :
    List String :=
  (mapping.filter (fun p => p.2 == council)).map Prod.fst

/-- One value of the Python dict returned by `calculate_wealth_adjusted_weights`
(analysis.py lines 243-248). -/
structure WeightEntry where
  council : String
  population : ℚ
  wealth_factor : ℚ
  weight : ℚ
deriving DecidableEq, Inhabited

/-- The weight computation for one council (analysis.py lines 234-248):
`weight = adjusted_value / total_adjusted` when `total_adjusted > 0`, else the
uniform `1 / len(constituencies)`. -/
def councilWeights (popT : PopTable) (wfT : WealthFactors)
    (mapping : List (String × String)) (council : String) :
    List (String × WeightEntry) :=
  let cs := constituenciesOf mapping council
  let total := (cs.map (adjustedValue popT wfT)).sum
  cs.map (fun c =>
    (c, { council := council
          population := lookupPopulation popT c
          wealth_factor := dictGet wfT c 1
          weight := if total > 0 then adjustedValue popT wfT c / total
                    else 1 / (cs.length : ℚ) }))

/-- The full weights table keyed by constituency, grouped by council in first
appearance order — the iteration order of the Python dicts `council_data` and
`weights` (analysis.py lines 208-250), with the mapping as a parameter. -/
def calcWeights (popT : PopTable) (wfT : WealthFactors)
    (mapping : List (String × String)) : List (String × WeightEntry) :=
  (councilsIn mapping).flatMap (councilWeights popT wfT mapping)

/-- `calculate_wealth_adjusted_weights` (analysis.py lines 191-250): the
engine applied to the program's fixed constituency → council mapping. -/
def calculate_wealth_adjusted_weights (popT : PopTable) (wfT : WealthFactors) :
    List (String × WeightEntry) :=
  calcWeights popT wfT CONSTITUENCY_COUNCIL_MAPPING

/-! ## Python rounding

`round(x, n)` in Python (and pandas `.round(n)`) rounds half to even. -/

/-- Round to the nearest integer, ties to the even neighbour — the ideal
semantics of Python's builtin `round` on a real value. -/
def roundHalfEven (x : ℚ) : ℤ :=
  if x - ⌊x⌋ < 1 / 2 then ⌊x⌋
  else if x - ⌊x⌋ > 1 / 2 then ⌊x⌋ + 1
  else if ⌊x⌋ % 2 = 0 then ⌊x⌋ else ⌊x⌋ + 1

/-- Python's `round(x, n)` for `n ≥ 0` decimal digits. -/
def pyRound (x : ℚ) (n : ℕ) : ℚ := (roundHalfEven (x * 10 ^ n) : ℚ) / 10 ^ n

/-! ## The analysis stage (`analyze_constituencies`, analysis.py lines 253-390) -/

/-- The per-council total `total_adjusted = sum(adj for _, _, _, adj in
constituencies)` (analysis.py line 235). -/
def totalAdjusted (popT : PopTable) (wfT : WealthFactors)
    (mapping : List (String × String)) (council : String) : ℚ :=
  ((constituenciesOf mapping council).map (adjustedValue popT wfT)).sum

/-- `total_sales = sum(COUNCIL_DATA.values())` (analysis.py line 295). -/
def total_sales : ℚ := (COUNCIL_DATA.map Prod.snd).sum

/-- `avg_rate = BAND_I_RATIO * BAND_I_SURCHARGE + BAND_J_RATIO *
BAND_J_SURCHARGE` (analysis.py line 346). -/
def avg_rate : ℚ := BAND_I_RATIO * BAND_I_SURCHARGE + BAND_J_RATIO * BAND_J_SURCHARGE

/-- `total_stock_revenue = ESTIMATED_STOCK * avg_rate` (analysis.py line 347). -/
def total_stock_revenue : ℚ := ESTIMATED_STOCK * avg_rate

/-- The un-rounded allocated count `constituency_sales = council_sales *
weight` of a weights-table entry (analysis.py lines 306-309). -/
def constituencySales (e : WeightEntry) : ℚ :=
  dictGet COUNCIL_DATA e.council 0 * e.weight

/-- One row of the result table (analysis.py lines 324-340 plus the
`allocated_revenue` column added on line 350). -/
structure ResultRow where
  constituency : String
  council : String
  population : ℚ
  wealth_factor : ℚ
  wealth_data_source : String
  weight : ℚ
  estimated_sales : ℚ
  band_i_sales : ℚ
  band_j_sales : ℚ
  share_pct : ℚ
  implied_from_sales : ℚ
  allocated_revenue : ℚ
deriving DecidableEq, Inhabited

/-- The body of the result loop (analysis.py lines 299-340) together with the
`allocated_revenue` column (line 350), for one weights-table entry. -/
def mkRow (tag : String) (c : String) (e : WeightEntry) : ResultRow :=
  let council_sales := dictGet COUNCIL_DATA e.council 0
  let constituency_sales := council_sales * e.weight
  let share := if total_sales > 0 then constituency_sales / total_sales else 0
  let band_i_sales := constituency_sales * BAND_I_RATIO
  let band_j_sales := constituency_sales * BAND_J_RATIO
  let implied_from_sales :=
    band_i_sales * BAND_I_SURCHARGE + band_j_sales * BAND_J_SURCHARGE
  let rounded_sales := pyRound constituency_sales 1
  let sp := if rounded_sales > 0 then pyRound (share * 100) 2 else 0
  { constituency := c
    council := e.council
    population := e.population
    wealth_factor := e.wealth_factor
    wealth_data_source := tag
    weight := pyRound e.weight 4
    estimated_sales := rounded_sales
    band_i_sales := pyRound band_i_sales 1
    band_j_sales := pyRound band_j_sales 1
    share_pct := sp
    implied_from_sales := if rounded_sales > 0 then pyRound implied_from_sales 0
                          else 0
    allocated_revenue := pyRound (sp / 100 * total_stock_revenue) 0 }

/-- The result table of `analyze_constituencies` (analysis.py lines 253-390),
taking the already-loaded population table, wealth-factor mapping and
wealth-data-source tag as inputs.  The final `sort_values` on the sales
column (line 343, presentation order only) is omitted: it permutes rows and
every verified property is invariant under row order. -/
def analyze_constituencies (popT : PopTable) (wfT : WealthFactors)
    (tag : String) : List ResultRow :=
  (calculate_wealth_adjusted_weights popT wfT).map (fun pr => mkRow tag pr.1 pr.2)

/-- The share-percentage column of a row as a function of the row's
un-rounded allocated count `s` (analysis.py lines 312, 323, 335, with the
concrete `total_sales` = 429): `round(s / 429 * 100, 2)` when the allocated
count rounded to one decimal is positive, else 0. -/
def spFun (s : ℚ) : ℚ :=
  if 0 < pyRound s 1 then pyRound (s / 429 * 100) 2 else 0

/-- An adversarial wealth-factor mapping: Edinburgh Central weighted 16, the
other five Edinburgh constituencies −3 (weights sum to 1, but individual
weights leave (0,1]). -/
def adversarialFactors : WealthFactors :=
  [("Edinburgh Central", 16), ("Edinburgh Western", -3),
   ("Edinburgh Southern", -3), ("Edinburgh Pentlands", -3),
   ("Edinburgh Northern and Leith", -3), ("Edinburgh Eastern", -3)]

/-! ## Data loading (`data.py`) -/

/-- Availability and contents of the two population-data files that
`load_population_data` (data.py lines 331-377) looks for in the data
directory. -/
structure DataFiles where
  csvExists : Bool
  csvTable : PopTable
  xlsxExists : Bool
  xlsxTable : PopTable

/-- `load_population_data` (data.py lines 331-377): return the CSV table if
present, else extract from the Excel source if present, else raise
`FileNotFoundError` with a message naming both expected paths and the
remediation command.  Excel/CSV parsing itself is out of scope; the parsed
tables are carried by `DataFiles`. -/
def load_population_data (dataDir : String) (fs : DataFiles) :
    Except String PopTable :=
  if fs.csvExists then Except.ok fs.csvTable
  else if fs.xlsxExists then Except.ok fs.xlsxTable
  else Except.error
    ("Population data not found. Expected one of:\n  - "
      ++ dataDir ++ "/constituency_population.csv"
      ++ "\n  - " ++ dataDir ++ "/nrs_constituency_population.xlsx"
      ++ "\n\nRun \x27scotland-mansion-tax download --all\x27 to download required data.")

/-- Availability (local file or successful download) and contents of the two
inputs of `load_wealth_factors` (data.py lines 196-328): the dwelling
estimates (DataZone, total dwellings, Band H count) and the DataZone →
constituency-code lookup. -/
structure WealthDataFiles where
  dwellingAvailable : Bool
  lookupAvailable : Bool
  dwelling : List (String × ℚ × ℚ)
  lookup : List (String × String)

/-- `load_wealth_factors` (data.py lines 196-328): if either required input
cannot be obtained, return the empty mapping tagged
`"fallback_population_only"`; otherwise join the dwelling rows to
constituency codes, aggregate per code, and return
`round(pct / scotland_avg_pct, 2)` per code, tagged `"band_h"`.  The pandas
`groupby` sorts its keys; here codes are kept in first-appearance order,
which no verified property depends on.  The factors are keyed by constituency
GSS code, exactly as in the source. -/
def load_wealth_factors (fs : WealthDataFiles) : WealthFactors × String :=
  if fs.dwellingAvailable = false then ([], "fallback_population_only")
  else if fs.lookupAvailable = false then ([], "fallback_population_only")
  else
    let merged := fs.dwelling.filterMap (fun r =>
      (fs.lookup.find? (fun l => l.1 == r.1)).map (fun l => (l.2, r.2.1, r.2.2)))
    let codes := merged.foldl
      (fun acc r => if acc.contains r.1 then acc else acc ++ [r.1]) []
    let agg := codes.map (fun code =>
      (code,
        ((merged.filter (fun r => r.1 == code)).map (fun r => r.2.1)).sum,
        ((merged.filter (fun r => r.1 == code)).map (fun r => r.2.2)).sum))
    let scotland_band_h := (agg.map (fun a => a.2.2)).sum
    let scotland_total := (agg.map (fun a => a.2.1)).sum
    let scotland_avg_pct := scotland_band_h / scotland_total
    (agg.map (fun a =>
      let pct := if a.2.1 > 0 then a.2.2 / a.2.1 else 0
      let factor := if scotland_avg_pct > 0 then pct / scotland_avg_pct else 1
      (a.1, pyRound factor 2)), "band_h")

/-- The data-loading part of `analyze_constituencies` (analysis.py lines
271-292) composed with the result computation: population loading may fail
(`FileNotFoundError` becomes `Except.error`), wealth-factor loading always
succeeds (possibly in fallback mode). -/
def analyze_constituencies_from (dataDir : String) (fs : DataFiles)
    (wfs : WealthDataFiles) : Except String (List ResultRow) :=
  match load_population_data dataDir fs with
  | Except.error e => Except.error e
  | Except.ok popT =>
      let wf := load_wealth_factors wfs
      Except.ok (analyze_constituencies popT wf.1 wf.2)

/-- Exit status of the `analyze` CLI command (cli.py lines 97-125): a
`FileNotFoundError` from data loading is caught and turns into
`SystemExit(1)`; otherwise the results are written and the command exits
normally (status 0). -/
def analyze_command_exit (dataDir : String) (fs : DataFiles)
    (wfs : WealthDataFiles) : ℕ :=
  match analyze_constituencies_from dataDir fs wfs with
  | Except.error _ => 1
  | Except.ok _ => 0

theorem roundHalfEven_sub_abs (x : ℚ) : |(roundHalfEven x : ℚ) - x| ≤ 1 / 2 := by
  have h0 : (⌊x⌋ : ℚ) ≤ x := Int.floor_le x
  have h1 : x < ⌊x⌋ + 1 := Int.lt_floor_add_one x
  unfold roundHalfEven
  split_ifs with ha hb hc <;>
    · rw [abs_le]
      constructor <;> (push_cast; linarith)

theorem roundHalfEven_nonneg (x : ℚ) (h : 0 ≤ x) : 0 ≤ roundHalfEven x := by
  have habs := roundHalfEven_sub_abs x
  rw [abs_le] at habs
  have h2 : (-1 : ℚ) < (roundHalfEven x : ℚ) := by linarith [habs.1]
  have h3 : (-1 : ℤ) < roundHalfEven x := by exact_mod_cast h2
  omega

theorem one_le_roundHalfEven_iff (x : ℚ) : 1 ≤ roundHalfEven x ↔ 1 / 2 < x := by
  constructor
  · intro h
    have habs := roundHalfEven_sub_abs x
    rw [abs_le] at habs
    have hge : 1 / 2 ≤ x := by
      have : (1 : ℚ) ≤ (roundHalfEven x : ℚ) := by exact_mod_cast h
      linarith [habs.2]
    rcases lt_or_eq_of_le hge with hlt | heq
    · exact hlt
    · exfalso
      have hfl : ⌊x⌋ = 0 := by rw [← heq]; norm_num
      have : roundHalfEven x = 0 := by
        unfold roundHalfEven
        rw [hfl, ← heq]
        norm_num
      omega
  · intro h
    have habs := roundHalfEven_sub_abs x
    rw [abs_le] at habs
    have : (0 : ℚ) < (roundHalfEven x : ℚ) := by linarith [habs.1]
    have : (0 : ℤ) < roundHalfEven x := by exact_mod_cast this
    omega

theorem pyRound_sub_abs (x : ℚ) (n : ℕ) :
    |pyRound x n - x| ≤ 1 / (2 * 10 ^ n) := by
  have hp : (0 : ℚ) < 10 ^ n := by positivity
  have h := roundHalfEven_sub_abs (x * 10 ^ n)
  unfold pyRound
  have heq : (roundHalfEven (x * 10 ^ n) : ℚ) / 10 ^ n - x =
      ((roundHalfEven (x * 10 ^ n) : ℚ) - x * 10 ^ n) / 10 ^ n := by
    field_simp
    ring
  rw [heq, abs_div, abs_of_pos hp]
  rw [div_le_iff₀ hp]
  calc |(roundHalfEven (x * 10 ^ n) : ℚ) - x * 10 ^ n| ≤ 1 / 2 := h
    _ = 1 / (2 * 10 ^ n) * 10 ^ n := by field_simp

theorem pyRound_nonneg (x : ℚ) (n : ℕ) (h : 0 ≤ x) : 0 ≤ pyRound x n := by
  have hp : (0 : ℚ) < 10 ^ n := by positivity
  have hr : 0 ≤ roundHalfEven (x * 10 ^ n) :=
    roundHalfEven_nonneg _ (by positivity)
  unfold pyRound
  have : (0 : ℚ) ≤ (roundHalfEven (x * 10 ^ n) : ℚ) := by exact_mod_cast hr
  positivity

theorem pyRound_pos_iff (x : ℚ) (n : ℕ) :
    0 < pyRound x n ↔ 1 / (2 * 10 ^ n) < x := by
  have hp : (0 : ℚ) < 10 ^ n := by positivity
  unfold pyRound
  rw [div_pos_iff]
  constructor
  · rintro (⟨hr, _⟩ | ⟨_, hneg⟩)
    · have h1 : 1 ≤ roundHalfEven (x * 10 ^ n) := by
        have : (0 : ℤ) < roundHalfEven (x * 10 ^ n) := by exact_mod_cast hr
        omega
      have hx := (one_le_roundHalfEven_iff _).mp h1
      rw [div_lt_iff₀ (by positivity : (0:ℚ) < 2 * 10 ^ n)]
      have hre : x * (2 * 10 ^ n) = 2 * (x * 10 ^ n) := by ring
      rw [hre]
      linarith
    · linarith
  · intro h
    left
    refine ⟨?_, hp⟩
    have hx : 1 / 2 < x * 10 ^ n := by
      rw [div_lt_iff₀ (by positivity : (0:ℚ) < 2 * 10 ^ n)] at h
      nlinarith
    have h1 := (one_le_roundHalfEven_iff _).mpr hx
    have h2 : (0 : ℤ) < roundHalfEven (x * 10 ^ n) := by omega
    exact_mod_cast h2

/-! ## Structural lemmas about the weights table -/

theorem councilsIn_go_mem (m : List (String × String)) :
    ∀ (acc : List String) (x : String),
      x ∈ m.foldl (fun acc p => if acc.contains p.2 then acc else acc ++ [p.2]) acc
        ↔ x ∈ acc ∨ x ∈ m.map Prod.snd := by
  induction m with
  | nil => intro acc x; simp
  | cons p m ih =>
      intro acc x
      rw [List.foldl_cons, ih]
      by_cases h : acc.contains p.2
      · have hmem : p.2 ∈ acc := List.elem_iff.mp h
        rw [if_pos h]
        simp only [List.map_cons, List.mem_cons]
        constructor
        · rintro (hx | hx)
          · exact Or.inl hx
          · exact Or.inr (Or.inr hx)
        · rintro (hx | hx | hx)
          · exact Or.inl hx
          · exact Or.inl (by rw [hx]; exact hmem)
          · exact Or.inr hx
      · rw [if_neg h]
        simp only [List.mem_append, List.mem_singleton, List.map_cons,
          List.mem_cons]
        tauto

theorem mem_councilsIn {m : List (String × String)} {x : String} :
    x ∈ councilsIn m ↔ x ∈ m.map Prod.snd := by
  unfold councilsIn
  rw [councilsIn_go_mem m [] x]
  simp

theorem councilsIn_go_nodup (m : List (String × String)) :
    ∀ acc : List String, acc.Nodup →
      (m.foldl (fun acc p => if acc.contains p.2 then acc else acc ++ [p.2])
        acc).Nodup := by
  induction m with
  | nil => intro acc h; simpa using h
  | cons p m ih =>
      intro acc h
      rw [List.foldl_cons]
      apply ih
      by_cases hc : acc.contains p.2
      · rw [if_pos hc]; exact h
      · rw [if_neg hc]
        have hmem : p.2 ∉ acc := fun hm => hc (List.elem_iff.mpr hm)
        refine List.nodup_append.mpr ⟨h, List.nodup_singleton _, ?_⟩
        intro a ha hb
        rw [List.mem_singleton] at hb
        exact hmem (hb ▸ ha)

theorem councilsIn_nodup (m : List (String × String)) : (councilsIn m).Nodup := by
  unfold councilsIn
  exact councilsIn_go_nodup m [] List.nodup_nil

theorem constituenciesOf_ne_nil {m : List (String × String)} {k : String}
    (h : k ∈ councilsIn m) : constituenciesOf m k ≠ [] := by
  rw [mem_councilsIn] at h
  obtain ⟨p, hp, hpk⟩ := List.mem_map.mp h
  unfold constituenciesOf
  intro hnil
  rw [List.map_eq_nil_iff] at hnil
  have : p ∈ m.filter (fun q => q.2 == k) := by
    rw [List.mem_filter]
    exact ⟨hp, by simp [hpk]⟩
  rw [hnil] at this
  exact absurd this (List.not_mem_nil p)

theorem sum_councilWeights (popT : PopTable) (wfT : WealthFactors)
    (m : List (String × String)) (k : String)
    (h : constituenciesOf m k ≠ []) :
    ((councilWeights popT wfT m k).map (fun pr => pr.2.weight)).sum = 1 := by
  unfold councilWeights
  simp only [List.map_map]
  set cs := constituenciesOf m k with hcs
  set total := (cs.map (adjustedValue popT wfT)).sum with htotal
  have hcomp :
      ((fun pr : String × WeightEntry => pr.2.weight) ∘
        fun c => (c, { council := k
                       population := lookupPopulation popT c
                       wealth_factor := dictGet wfT c 1
                       weight := if total > 0 then adjustedValue popT wfT c / total
                                 else 1 / (cs.length : ℚ) })) =
      fun c => if total > 0 then adjustedValue popT wfT c / total
               else 1 / (cs.length : ℚ) := rfl
  rw [hcomp]
  by_cases hpos : total > 0
  · simp only [hpos, if_true]
    have : (cs.map fun c => adjustedValue popT wfT c / total).sum
        = (cs.map (adjustedValue popT wfT)).sum / total := by
      simp only [div_eq_mul_inv]
      exact List.sum_map_mul_right cs (adjustedValue popT wfT) total⁻¹
    rw [this, ← htotal, div_self (ne_of_gt hpos)]
  · simp only [hpos, if_false]
    have hlen : (cs.length : ℚ) ≠ 0 :=
      Nat.cast_ne_zero.mpr (Nat.pos_iff_ne_zero.mp (List.length_pos_of_ne_nil h))
    have hrep : (cs.map fun _ => 1 / (cs.length : ℚ)) =
        List.replicate cs.length (1 / (cs.length : ℚ)) :=
      List.map_const' cs _
    rw [hrep, List.sum_replicate, nsmul_eq_mul, mul_one_div, div_self hlen]

theorem filter_councilWeights (popT : PopTable) (wfT : WealthFactors)
    (m : List (String × String)) (k k' : String) :
    (councilWeights popT wfT m k).filter (fun pr => pr.2.council == k') =
      if k' = k then councilWeights popT wfT m k else [] := by
  by_cases h : k' = k
  · subst h
    rw [if_pos rfl]
    apply List.filter_eq_self.mpr
    intro pr hpr
    unfold councilWeights at hpr
    obtain ⟨c, _, rfl⟩ := List.mem_map.mp hpr
    simp
  · rw [if_neg h]
    apply List.filter_eq_nil_iff.mpr
    intro pr hpr
    unfold councilWeights at hpr
    obtain ⟨c, _, rfl⟩ := List.mem_map.mp hpr
    simp only [beq_iff_eq]
    exact fun heq => absurd heq.symm h

theorem sum_filter_calcWeights (popT : PopTable) (wfT : WealthFactors)
    (m : List (String × String)) (council : String)
    (h : council ∈ councilsIn m) :
    (((calcWeights popT wfT m).filter (fun pr => pr.2.council == council)).map
        (fun pr => pr.2.weight)).sum = 1 := by
  unfold calcWeights
  have hnd := councilsIn_nodup m
  have hne : ∀ k ∈ councilsIn m, constituenciesOf m k ≠ [] := by
    intro k hk; exact constituenciesOf_ne_nil hk
  revert h hnd hne
  generalize councilsIn m = L
  intro h hnd hne
  induction L with
  | nil => exact absurd h (List.not_mem_nil _)
  | cons k L ih =>
      rw [List.flatMap_cons, List.filter_append, List.map_append,
        List.sum_append, filter_councilWeights]
      rcases List.mem_cons.mp h with hk | hk
      · rw [if_pos hk]
        rw [sum_councilWeights popT wfT m k (hne k (List.mem_cons_self _ _))]
        have hnotin : council ∉ L := by
          subst hk
          exact (List.nodup_cons.mp hnd).1
        have hzero :
            ((L.flatMap (councilWeights popT wfT m)).filter
                (fun pr => pr.2.council == council)).map
              (fun pr => pr.2.weight) = [] := by
          rw [List.map_eq_nil_iff, List.filter_eq_nil_iff]
          intro pr hpr
          obtain ⟨k', hk', hmem⟩ := List.mem_flatMap.mp hpr
          have : pr.2.council = k' := by
            unfold councilWeights at hmem
            obtain ⟨c, _, hc⟩ := List.mem_map.mp hmem
            rw [← hc]
          simp only [beq_iff_eq, this]
          intro heq
          exact hnotin (heq ▸ hk')
        rw [hzero]
        simp
      · have hkc : ¬(council = k) := by
          intro heq
          subst heq
          exact (List.nodup_cons.mp hnd).1 hk
        rw [if_neg hkc]
        simp only [List.map_nil, List.sum_nil, zero_add]
        exact ih hk (List.nodup_cons.mp hnd).2
          (fun k' hk' => hne k' (List.mem_cons_of_mem _ hk'))

/-! ## Shape of the weights table -/

theorem calcWeights_mem (popT : PopTable) (wfT : WealthFactors)
    (m : List (String × String)) (pr : String × WeightEntry)
    (h : pr ∈ calcWeights popT wfT m) :
    pr.2.council ∈ councilsIn m ∧
    pr.1 ∈ constituenciesOf m pr.2.council ∧
    pr.2.population = lookupPopulation popT pr.1 ∧
    pr.2.wealth_factor = dictGet wfT pr.1 1 ∧
    pr.2.weight = (if 0 < totalAdjusted popT wfT m pr.2.council
        then adjustedValue popT wfT pr.1 / totalAdjusted popT wfT m pr.2.council
        else 1 / ((constituenciesOf m pr.2.council).length : ℚ)) := by
  unfold calcWeights at h
  obtain ⟨k, hk, hmem⟩ := List.mem_flatMap.mp h
  unfold councilWeights at hmem
  obtain ⟨c, hc, rfl⟩ := List.mem_map.mp hmem
  exact ⟨hk, hc, rfl, rfl, rfl⟩

theorem councilWeights_length (popT : PopTable) (wfT : WealthFactors)
    (m : List (String × String)) (k : String) :
    (councilWeights popT wfT m k).length = (constituenciesOf m k).length := by
  unfold councilWeights
  exact List.length_map _ _

theorem calculate_weights_length (popT : PopTable) (wfT : WealthFactors) :
    (calculate_wealth_adjusted_weights popT wfT).length =
      EXPECTED_CONSTITUENCIES := by
  unfold calculate_wealth_adjusted_weights calcWeights
  rw [List.length_flatMap]
  have hcong : (councilsIn CONSTITUENCY_COUNCIL_MAPPING).map
        (List.length ∘ councilWeights popT wfT CONSTITUENCY_COUNCIL_MAPPING) =
      (councilsIn CONSTITUENCY_COUNCIL_MAPPING).map
        (fun k => (constituenciesOf CONSTITUENCY_COUNCIL_MAPPING k).length) :=
    List.map_congr_left (fun k _ => councilWeights_length popT wfT _ k)
  rw [hcong]
  decide

theorem analyze_length (popT : PopTable) (wfT : WealthFactors) (tag : String) :
    (analyze_constituencies popT wfT tag).length = EXPECTED_CONSTITUENCIES := by
  unfold analyze_constituencies
  rw [List.length_map]
  exact calculate_weights_length popT wfT

/-! ## Positivity of the inputs -/

theorem lookupPopulation_pos (popT : PopTable)
    (h : ∀ p ∈ popT, 0 < p.2) (c : String) : 0 < lookupPopulation popT c := by
  unfold lookupPopulation
  cases hf : popT.find? (fun r => r.1 == c) with
  | none => norm_num
  | some r => exact h r (List.mem_of_find?_eq_some hf)

theorem dictGet_pos (d : List (String × ℚ)) (k : String) (dflt : ℚ)
    (h : ∀ p ∈ d, 0 < p.2) (hd : 0 < dflt) : 0 < dictGet d k dflt := by
  unfold dictGet
  cases hf : d.find? (fun r => r.1 == k) with
  | none => exact hd
  | some r => exact h r (List.mem_of_find?_eq_some hf)

theorem adjustedValue_pos (popT : PopTable) (wfT : WealthFactors)
    (hpop : ∀ p ∈ popT, 0 < p.2) (hwf : ∀ w ∈ wfT, 0 < w.2) (c : String) :
    0 < adjustedValue popT wfT c :=
  mul_pos (lookupPopulation_pos popT hpop c) (dictGet_pos wfT c 1 hwf one_pos)

/-! ## Concrete evaluations of the fixed reference data -/

theorem councilsIn_MAPPING :
    councilsIn CONSTITUENCY_COUNCIL_MAPPING =
      ["City of Edinburgh", "East Lothian", "Fife", "East Dunbartonshire",
       "Aberdeen City", "Aberdeenshire", "Glasgow City", "Perth and Kinross",
       "Stirling", "Highland", "East Renfrewshire", "Scottish Borders",
       "South Ayrshire", "Argyll and Bute", "Midlothian", "West Lothian",
       "South Lanarkshire", "North Lanarkshire", "Renfrewshire", "Inverclyde",
       "Falkirk", "Clackmannanshire", "Dumfries and Galloway", "Dundee City",
       "Angus", "Moray", "North Ayrshire", "East Ayrshire",
       "West Dunbartonshire", "Eilean Siar", "Orkney Islands",
       "Shetland Islands"] := by decide

theorem constituenciesOf_Edinburgh :
    constituenciesOf CONSTITUENCY_COUNCIL_MAPPING "City of Edinburgh" =
      ["Edinburgh Central", "Edinburgh Western", "Edinburgh Southern",
       "Edinburgh Pentlands", "Edinburgh Northern and Leith",
       "Edinburgh Eastern"] := by decide

/-! ## Conservation of the allocated counts -/

theorem sum_sales_councilWeights (popT : PopTable) (wfT : WealthFactors)
    (m : List (String × String)) (k : String)
    (h : constituenciesOf m k ≠ []) :
    ((councilWeights popT wfT m k).map (fun pr => constituencySales pr.2)).sum
      = dictGet COUNCIL_DATA k 0 := by
  have hw : ((councilWeights popT wfT m k).map (fun pr => pr.2.weight)).sum = 1 :=
    sum_councilWeights popT wfT m k h
  unfold constituencySales
  unfold councilWeights at hw ⊢
  rw [List.map_map] at hw ⊢
  have hcomp :
      ((fun pr : String × WeightEntry =>
          dictGet COUNCIL_DATA pr.2.council 0 * pr.2.weight) ∘
        fun c => (c, { council := k
                       population := lookupPopulation popT c
                       wealth_factor := dictGet wfT c 1
                       weight := if ((constituenciesOf m k).map
                             (adjustedValue popT wfT)).sum > 0
                         then adjustedValue popT wfT c /
                           ((constituenciesOf m k).map (adjustedValue popT wfT)).sum
                         else 1 / ((constituenciesOf m k).length : ℚ) })) =
      fun c => dictGet COUNCIL_DATA k 0 *
        ((fun pr : String × WeightEntry => pr.2.weight) ∘
          fun c => (c, { council := k
                         population := lookupPopulation popT c
                         wealth_factor := dictGet wfT c 1
                         weight := if ((constituenciesOf m k).map
                               (adjustedValue popT wfT)).sum > 0
                           then adjustedValue popT wfT c /
                             ((constituenciesOf m k).map (adjustedValue popT wfT)).sum
                           else 1 / ((constituenciesOf m k).length : ℚ) })) c := rfl
  rw [hcomp, List.sum_map_mul_left, hw, mul_one]

theorem sum_sales_calcWeights (popT : PopTable) (wfT : WealthFactors)
    (m : List (String × String)) :
    ((calcWeights popT wfT m).map (fun pr => constituencySales pr.2)).sum
      = ((councilsIn m).map (fun k => dictGet COUNCIL_DATA k 0)).sum := by
  unfold calcWeights
  have hne : ∀ k ∈ councilsIn m, constituenciesOf m k ≠ [] :=
    fun k hk => constituenciesOf_ne_nil hk
  revert hne
  generalize councilsIn m = L
  intro hne
  induction L with
  | nil => simp
  | cons k L ih =>
      rw [List.flatMap_cons, List.map_append, List.sum_append, List.map_cons,
        List.sum_cons,
        sum_sales_councilWeights popT wfT m k (hne k (List.mem_cons_self _ _)),
        ih (fun k' hk' => hne k' (List.mem_cons_of_mem _ hk'))]

/-! ## The first entry of the weights table -/

theorem headI_mem_of_ne_nil {α : Type} [Inhabited α] {l : List α}
    (h : l ≠ []) : l.headI ∈ l := by
  cases l with
  | nil => exact absurd rfl h
  | cons a l => exact List.mem_cons_self a l

theorem calc_ne_nil (popT : PopTable) (wfT : WealthFactors) :
    calculate_wealth_adjusted_weights popT wfT ≠ [] := by
  intro h
  have hl := calculate_weights_length popT wfT
  rw [h] at hl
  simp [EXPECTED_CONSTITUENCIES] at hl

theorem calc_headI_eq (popT : PopTable) (wfT : WealthFactors) :
    (calculate_wealth_adjusted_weights popT wfT).headI =
      (councilWeights popT wfT CONSTITUENCY_COUNCIL_MAPPING
        "City of Edinburgh").headI := by
  unfold calculate_wealth_adjusted_weights calcWeights
  rw [councilsIn_MAPPING, List.flatMap_cons]
  cases hcw : councilWeights popT wfT CONSTITUENCY_COUNCIL_MAPPING
      "City of Edinburgh" with
  | nil =>
      exfalso
      have hl := councilWeights_length popT wfT CONSTITUENCY_COUNCIL_MAPPING
        "City of Edinburgh"
      rw [hcw, constituenciesOf_Edinburgh] at hl
      simp at hl
  | cons a l => rfl

theorem councilWeights_Edinburgh_headI (popT : PopTable) (wfT : WealthFactors) :
    (councilWeights popT wfT CONSTITUENCY_COUNCIL_MAPPING
        "City of Edinburgh").headI =
      ("Edinburgh Central",
        { council := "City of Edinburgh"
          population := lookupPopulation popT "Edinburgh Central"
          wealth_factor := dictGet wfT "Edinburgh Central" 1
          weight := if 0 < totalAdjusted popT wfT CONSTITUENCY_COUNCIL_MAPPING
                "City of Edinburgh"
            then adjustedValue popT wfT "Edinburgh Central" /
              totalAdjusted popT wfT CONSTITUENCY_COUNCIL_MAPPING
                "City of Edinburgh"
            else 1 / 6 }) := by
  unfold councilWeights totalAdjusted
  rw [constituenciesOf_Edinburgh]
  simp [List.headI]

/-! ## Claim C1 -/

/-- C1: for every population table and wealth-factor mapping, and every
council appearing in `CONSTITUENCY_COUNCIL_MAPPING`, the weights computed by
`calculate_wealth_adjusted_weights` for that council's constituencies sum to
1.0 within a tolerance of 1e-3 (in fact exactly). -/
theorem weights_sum_to_one_per_council (popT : PopTable) (wfT : WealthFactors)
    (council : String) (h : council ∈ councilsIn CONSTITUENCY_COUNCIL_MAPPING) :
    |(((calculate_wealth_adjusted_weights popT wfT).filter
          (fun pr => pr.2.council == council)).map
        (fun pr => pr.2.weight)).sum - 1| ≤ 1 / 1000 := by
  unfold calculate_wealth_adjusted_weights
  rw [sum_filter_calcWeights popT wfT CONSTITUENCY_COUNCIL_MAPPING council h]
  norm_num

/-- Witness for C1: the council "Fife" with empty inputs. -/
theorem weights_sum_to_one_per_council_witness :
    |((((calculate_wealth_adjusted_weights [] []).filter
          (fun pr => pr.2.council == "Fife")).map
        (fun pr => pr.2.weight)).sum - 1)| ≤ 1 / 1000 :=
  weights_sum_to_one_per_council [] [] "Fife" (by decide)

/-! ## Claim C2 -/

/-- C2: the concrete scenario from the spec: an area "X" with observed count
200 and two subareas "A", "B" with populations 100000, 50000 and wealth
factors 2.0, 1.0.  The engine computes adjusted values 200000 and 50000,
weights 0.8 and 0.2, and the allocation step `observed_count × weight`
yields 160 and 40. -/
theorem concrete_two_subarea_scenario :
    adjustedValue [("A", 100000), ("B", 50000)] [("A", 2), ("B", 1)] "A" = 200000 ∧
    adjustedValue [("A", 100000), ("B", 50000)] [("A", 2), ("B", 1)] "B" = 50000 ∧
    calcWeights [("A", 100000), ("B", 50000)] [("A", 2), ("B", 1)]
        [("A", "X"), ("B", "X")] =
      [("A", { council := "X", population := 100000, wealth_factor := 2,
               weight := 8 / 10 }),
       ("B", { council := "X", population := 50000, wealth_factor := 1,
               weight := 2 / 10 })] ∧
    (calcWeights [("A", 100000), ("B", 50000)] [("A", 2), ("B", 1)]
        [("A", "X"), ("B", "X")]).map (fun pr => 200 * pr.2.weight) =
      [160, 40] := by
  refine ⟨?_, ?_, ?_, ?_⟩ <;>
    simp [calcWeights, councilsIn, councilWeights, constituenciesOf,
      adjustedValue, lookupPopulation, dictGet, List.find?, List.filter] <;>
    norm_num

/-! ## Claim C5 -/

/-- C5: every council of `COUNCIL_DATA` has at least one mapped constituency,
and for every input the sum of the un-rounded allocated counts over all
weights-table entries equals the sum of the observed council counts (exactly,
hence within any rounding tolerance). -/
theorem total_allocated_equals_observed (popT : PopTable) (wfT : WealthFactors) :
    (∀ k ∈ COUNCIL_DATA.map Prod.fst,
      k ∈ councilsIn CONSTITUENCY_COUNCIL_MAPPING) ∧
    ((calculate_wealth_adjusted_weights popT wfT).map
        (fun pr => constituencySales pr.2)).sum =
      (COUNCIL_DATA.map Prod.snd).sum := by
  constructor
  · decide
  · unfold calculate_wealth_adjusted_weights
    rw [sum_sales_calcWeights]
    have h1 : (councilsIn CONSTITUENCY_COUNCIL_MAPPING).map
        (fun k => dictGet COUNCIL_DATA k 0) =
        [200, 35, 30, 25, 20, 15, 15, 12, 10, 10, 10, 8, 7, 6, 5, 5, 3, 2, 2,
         1, 1, 1, 1, 1, 1, 1, 1, 0, 1, 0, 0, 0] := by decide
    have h2 : COUNCIL_DATA.map Prod.snd =
        [200, 35, 30, 25, 20, 15, 15, 12, 10, 10, 10, 8, 7, 6, 5, 5, 3, 2, 2,
         1, 1, 1, 1, 1, 1, 1, 1, 1, 0, 0, 0, 0] := by decide
    rw [h1, h2]
    norm_num

/-! ## Claim C6 -/

/-- C6 counterexample: with an empty population table and the wealth-factor
mapping `{"Edinburgh Central": -1.0}`, the first weights-table entry is
Edinburgh Central with weight −1/4, which is not in (0, 1]; so not every
input yields weights in (0, 1]. -/
theorem weight_outside_unit_interval_cex :
    (calculate_wealth_adjusted_weights [] [("Edinburgh Central", -1)]).headI.1
        = "Edinburgh Central" ∧
    (calculate_wealth_adjusted_weights [] [("Edinburgh Central", -1)]).headI.2.weight
        = -(1 / 4) ∧
    ¬(0 < (calculate_wealth_adjusted_weights []
          [("Edinburgh Central", -1)]).headI.2.weight ∧
      (calculate_wealth_adjusted_weights []
          [("Edinburgh Central", -1)]).headI.2.weight ≤ 1) := by
  have htot : totalAdjusted [] [("Edinburgh Central", -1)]
      CONSTITUENCY_COUNCIL_MAPPING "City of Edinburgh" = 300000 := by
    unfold totalAdjusted
    rw [constituenciesOf_Edinburgh]
    simp [adjustedValue, lookupPopulation, dictGet, List.find?]
    norm_num
  have hadj : adjustedValue [] [("Edinburgh Central", -1)] "Edinburgh Central"
      = -75000 := by
    simp [adjustedValue, lookupPopulation, dictGet, List.find?]
  rw [calc_headI_eq, councilWeights_Edinburgh_headI, htot, hadj]
  norm_num

/-- C6 (amended): for every input with positive populations and positive
wealth factors — the spec's input contract — every weight is in (0, 1].  The
counterexample forces a nonnegativity restriction on the inputs; positivity
is the spec's stated contract. -/
theorem weight_in_unit_interval (popT : PopTable) (wfT : WealthFactors)
    (hpop : ∀ p ∈ popT, 0 < p.2) (hwf : ∀ w ∈ wfT, 0 < w.2)
    (pr : String × WeightEntry)
    (h : pr ∈ calculate_wealth_adjusted_weights popT wfT) :
    0 < pr.2.weight ∧ pr.2.weight ≤ 1 := by
  obtain ⟨hk, hc, -, -, hw⟩ :=
    calcWeights_mem popT wfT CONSTITUENCY_COUNCIL_MAPPING pr h
  have hposmem : 0 < adjustedValue popT wfT pr.1 :=
    adjustedValue_pos popT wfT hpop hwf pr.1
  have hle : adjustedValue popT wfT pr.1 ≤
      totalAdjusted popT wfT CONSTITUENCY_COUNCIL_MAPPING pr.2.council := by
    unfold totalAdjusted
    apply List.single_le_sum
    · intro x hx
      obtain ⟨c, _, rfl⟩ := List.mem_map.mp hx
      exact (adjustedValue_pos popT wfT hpop hwf c).le
    · exact List.mem_map_of_mem _ hc
  have htot : 0 < totalAdjusted popT wfT CONSTITUENCY_COUNCIL_MAPPING
      pr.2.council := lt_of_lt_of_le hposmem hle
  rw [hw, if_pos htot]
  exact ⟨div_pos hposmem htot, (div_le_one htot).mpr hle⟩

/-- Witness for C6 (amended): the first entry at empty inputs. -/
theorem weight_in_unit_interval_witness :
    0 < (calculate_wealth_adjusted_weights [] []).headI.2.weight ∧
    (calculate_wealth_adjusted_weights [] []).headI.2.weight ≤ 1 :=
  weight_in_unit_interval [] [] (by simp) (by simp) _
    (headI_mem_of_ne_nil (calc_ne_nil [] []))

/-! ## Claim C8 -/

/-- C8 counterexample: with an empty population table and the wealth-factor
mapping `{"Edinburgh Central": -11.0}`, Edinburgh's total adjusted value is
−450000 — nonzero — yet the code gives Edinburgh Central the uniform weight
1/6, not its `adjusted_value / total` of 11/6: the code's branch condition is
`total_adjusted > 0`, not `total_adjusted ≠ 0`. -/
theorem uniform_weight_on_negative_total_cex :
    totalAdjusted [] [("Edinburgh Central", -11)] CONSTITUENCY_COUNCIL_MAPPING
        "City of Edinburgh" = -450000 ∧
    (calculate_wealth_adjusted_weights [] [("Edinburgh Central", -11)]).headI.1
        = "Edinburgh Central" ∧
    (calculate_wealth_adjusted_weights []
        [("Edinburgh Central", -11)]).headI.2.council = "City of Edinburgh" ∧
    (calculate_wealth_adjusted_weights []
        [("Edinburgh Central", -11)]).headI.2.weight = 1 / 6 ∧
    adjustedValue [] [("Edinburgh Central", -11)] "Edinburgh Central" /
        (-450000 : ℚ) = 11 / 6 ∧
    (1 / 6 : ℚ) ≠ 11 / 6 := by
  have htot : totalAdjusted [] [("Edinburgh Central", -11)]
      CONSTITUENCY_COUNCIL_MAPPING "City of Edinburgh" = -450000 := by
    unfold totalAdjusted
    rw [constituenciesOf_Edinburgh]
    simp [adjustedValue, lookupPopulation, dictGet, List.find?]
    norm_num
  have hadj : adjustedValue [] [("Edinburgh Central", -11)] "Edinburgh Central"
      = -825000 := by
    simp [adjustedValue, lookupPopulation, dictGet, List.find?]
    norm_num
  rw [calc_headI_eq, councilWeights_Edinburgh_headI, htot, hadj]
  norm_num

/-- C8 (amended): if a council's total adjusted value is zero — or, more
generally, not positive — every constituency of that council receives the
uniform weight 1/n; when the total is positive each weight equals its
adjusted value divided by the council total.  (The counterexample shows the
code falls back to uniform weights for a negative total as well, because its
branch condition is `total_adjusted > 0`.) -/
theorem weight_normalization_rule (popT : PopTable) (wfT : WealthFactors)
    (pr : String × WeightEntry)
    (h : pr ∈ calculate_wealth_adjusted_weights popT wfT) :
    (totalAdjusted popT wfT CONSTITUENCY_COUNCIL_MAPPING pr.2.council ≤ 0 →
      pr.2.weight = 1 / ((constituenciesOf CONSTITUENCY_COUNCIL_MAPPING
        pr.2.council).length : ℚ)) ∧
    (0 < totalAdjusted popT wfT CONSTITUENCY_COUNCIL_MAPPING pr.2.council →
      pr.2.weight = adjustedValue popT wfT pr.1 /
        totalAdjusted popT wfT CONSTITUENCY_COUNCIL_MAPPING pr.2.council) := by
  obtain ⟨-, -, -, -, hw⟩ :=
    calcWeights_mem popT wfT CONSTITUENCY_COUNCIL_MAPPING pr h
  constructor
  · intro hle
    rw [hw, if_neg (not_lt.mpr hle)]
  · intro hpos
    rw [hw, if_pos hpos]

/-- Witness for C8 (amended): the first entry at empty inputs, where the
council total 450000 is positive. -/
theorem weight_normalization_rule_witness :
    (calculate_wealth_adjusted_weights [] []).headI.2.weight =
      adjustedValue [] [] (calculate_wealth_adjusted_weights [] []).headI.1 /
        totalAdjusted [] [] CONSTITUENCY_COUNCIL_MAPPING
          (calculate_wealth_adjusted_weights [] []).headI.2.council := by
  have h := weight_normalization_rule [] []
    (calculate_wealth_adjusted_weights [] []).headI
    (headI_mem_of_ne_nil (calc_ne_nil [] []))
  apply h.2
  have hcouncil : (calculate_wealth_adjusted_weights [] []).headI.2.council
      = "City of Edinburgh" := by
    rw [calc_headI_eq, councilWeights_Edinburgh_headI]
  rw [hcouncil]
  have htot : totalAdjusted [] [] CONSTITUENCY_COUNCIL_MAPPING
      "City of Edinburgh" = 450000 := by
    unfold totalAdjusted
    rw [constituenciesOf_Edinburgh]
    simp [adjustedValue, lookupPopulation, dictGet, List.find?]
    norm_num
  rw [htot]
  norm_num

/-! ## Claim C4 -/

/-- C4: when the wealth-proxy dataset cannot be obtained and
`load_wealth_factors` returns the empty mapping tagged
`"fallback_population_only"`, `analyze_constituencies` still produces the
full 73-row result table; every row carries the fallback tag and wealth
factor 1.0, and (for positive populations, the spec's input contract) every
weight is the constituency's population divided by the total population of
its council's constituencies. -/
theorem fallback_population_only_mode (fsW : WealthDataFiles) (popT : PopTable)
    (hfs : load_wealth_factors fsW = ([], "fallback_population_only"))
    (hpop : ∀ p ∈ popT, 0 < p.2) :
    (analyze_constituencies popT (load_wealth_factors fsW).1
        (load_wealth_factors fsW).2).length = EXPECTED_CONSTITUENCIES ∧
    (∀ row ∈ analyze_constituencies popT (load_wealth_factors fsW).1
        (load_wealth_factors fsW).2,
      row.wealth_data_source = "fallback_population_only" ∧
      row.wealth_factor = 1) ∧
    (∀ pr ∈ calculate_wealth_adjusted_weights popT [],
      pr.2.weight = lookupPopulation popT pr.1 /
        ((constituenciesOf CONSTITUENCY_COUNCIL_MAPPING pr.2.council).map
          (lookupPopulation popT)).sum) := by
  rw [hfs]
  refine ⟨analyze_length popT [] _, ?_, ?_⟩
  · intro row hrow
    unfold analyze_constituencies at hrow
    obtain ⟨pr, hpr, rfl⟩ := List.mem_map.mp hrow
    obtain ⟨-, -, -, hwf, -⟩ :=
      calcWeights_mem popT [] CONSTITUENCY_COUNCIL_MAPPING pr hpr
    refine ⟨rfl, ?_⟩
    show pr.2.wealth_factor = 1
    rw [hwf]
    rfl
  · intro pr hpr
    obtain ⟨hk, hc, -, -, hw⟩ :=
      calcWeights_mem popT [] CONSTITUENCY_COUNCIL_MAPPING pr hpr
    have hagree : ∀ c ∈ constituenciesOf CONSTITUENCY_COUNCIL_MAPPING
        pr.2.council, adjustedValue popT [] c = lookupPopulation popT c := by
      intro c _
      unfold adjustedValue
      show lookupPopulation popT c * dictGet [] c 1 = lookupPopulation popT c
      rw [show dictGet [] c 1 = 1 from rfl, mul_one]
    have htoteq : totalAdjusted popT [] CONSTITUENCY_COUNCIL_MAPPING
        pr.2.council = ((constituenciesOf CONSTITUENCY_COUNCIL_MAPPING
          pr.2.council).map (lookupPopulation popT)).sum := by
      unfold totalAdjusted
      exact congrArg List.sum (List.map_congr_left hagree)
    have hpos : 0 < totalAdjusted popT [] CONSTITUENCY_COUNCIL_MAPPING
        pr.2.council := by
      rw [htoteq]
      apply List.sum_pos
      · intro x hx
        obtain ⟨c, _, rfl⟩ := List.mem_map.mp hx
        exact lookupPopulation_pos popT hpop c
      · intro hnil
        rw [List.map_eq_nil_iff] at hnil
        exact constituenciesOf_ne_nil hk hnil
    rw [hw, if_pos hpos, htoteq, hagree pr.1 hc]

/-- Witness for C4: the wealth data entirely unavailable and an empty
population table. -/
theorem fallback_population_only_mode_witness :
    (analyze_constituencies []
        (load_wealth_factors ⟨false, false, [], []⟩).1
        (load_wealth_factors ⟨false, false, [], []⟩).2).length
      = EXPECTED_CONSTITUENCIES ∧
    (∀ row ∈ analyze_constituencies []
        (load_wealth_factors ⟨false, false, [], []⟩).1
        (load_wealth_factors ⟨false, false, [], []⟩).2,
      row.wealth_data_source = "fallback_population_only" ∧
      row.wealth_factor = 1) ∧
    (∀ pr ∈ calculate_wealth_adjusted_weights [] [],
      pr.2.weight = lookupPopulation [] pr.1 /
        ((constituenciesOf CONSTITUENCY_COUNCIL_MAPPING pr.2.council).map
          (lookupPopulation [])).sum) :=
  fallback_population_only_mode ⟨false, false, [], []⟩ [] rfl (by simp)

/-! ## Claim C7 -/

/-- C7: if neither the population CSV nor the Excel source exists,
`load_population_data` raises an error whose message names both expected file
paths and the remediation command (no default is substituted), and the
`analyze` CLI command exits with status 1. -/
theorem missing_population_data_fatal (dataDir : String) (fs : DataFiles)
    (wfs : WealthDataFiles) (h1 : fs.csvExists = false)
    (h2 : fs.xlsxExists = false) :
    load_population_data dataDir fs = Except.error
      ("Population data not found. Expected one of:\n  - "
        ++ dataDir ++ "/constituency_population.csv"
        ++ "\n  - " ++ dataDir ++ "/nrs_constituency_population.xlsx"
        ++ "\n\nRun \x27scotland-mansion-tax download --all\x27 to download required data.") ∧
    analyze_command_exit dataDir fs wfs = 1 := by
  have hload : load_population_data dataDir fs = Except.error
      ("Population data not found. Expected one of:\n  - "
        ++ dataDir ++ "/constituency_population.csv"
        ++ "\n  - " ++ dataDir ++ "/nrs_constituency_population.xlsx"
        ++ "\n\nRun \x27scotland-mansion-tax download --all\x27 to download required data.") := by
    unfold load_population_data
    rw [h1, h2]
    simp
  refine ⟨hload, ?_⟩
  unfold analyze_command_exit analyze_constituencies_from
  rw [hload]

/-- Witness for C7: a data directory with neither population file. -/
theorem missing_population_data_fatal_witness :
    load_population_data "data" ⟨false, [], false, []⟩ = Except.error
      ("Population data not found. Expected one of:\n  - "
        ++ "data" ++ "/constituency_population.csv"
        ++ "\n  - " ++ "data" ++ "/nrs_constituency_population.xlsx"
        ++ "\n\nRun \x27scotland-mansion-tax download --all\x27 to download required data.") ∧
    analyze_command_exit "data" ⟨false, [], false, []⟩ ⟨false, false, [], []⟩
      = 1 :=
  missing_population_data_fatal "data" ⟨false, [], false, []⟩
    ⟨false, false, [], []⟩ rfl rfl

/-! ## Claim C10 -/

/-- C10 (implicit): when every key of the wealth-factor mapping misses every
constituency name of `CONSTITUENCY_COUNCIL_MAPPING` — which is what happens
in the real pipeline, since `load_wealth_factors` keys its result by GSS code
(e.g. "S16000108") while `calculate_wealth_adjusted_weights` looks factors up
by constituency name with default 1.0 — the computed weights are identical to
those of the empty mapping (pure population weighting) whatever the factor
values, the whole result table agrees with the fallback table except for the
tag column, and yet every row is tagged with the non-fallback source
"band_h". -/
theorem unmatched_wealth_keys_give_population_weights (popT : PopTable)
    (wfT : WealthFactors)
    (hdisj : ∀ c ∈ CONSTITUENCY_COUNCIL_MAPPING.map Prod.fst,
      wfT.find? (fun r => r.1 == c) = none) :
    calculate_wealth_adjusted_weights popT wfT =
      calculate_wealth_adjusted_weights popT [] ∧
    (analyze_constituencies popT wfT "band_h").map
        (fun row => { row with wealth_data_source := "fallback_population_only" })
      = analyze_constituencies popT [] "fallback_population_only" ∧
    ∀ row ∈ analyze_constituencies popT wfT "band_h",
      row.wealth_data_source = "band_h" := by
  have hsub : ∀ k : String,
      ∀ c ∈ constituenciesOf CONSTITUENCY_COUNCIL_MAPPING k,
        c ∈ CONSTITUENCY_COUNCIL_MAPPING.map Prod.fst := by
    intro k c hc
    unfold constituenciesOf at hc
    obtain ⟨p, hp, rfl⟩ := List.mem_map.mp hc
    exact List.mem_map_of_mem _ (List.mem_of_mem_filter hp)
  have hadj : ∀ c ∈ CONSTITUENCY_COUNCIL_MAPPING.map Prod.fst,
      adjustedValue popT wfT c = adjustedValue popT [] c := by
    intro c hc
    unfold adjustedValue dictGet
    rw [hdisj c hc]
    rfl
  have hcw : councilWeights popT wfT CONSTITUENCY_COUNCIL_MAPPING =
      councilWeights popT [] CONSTITUENCY_COUNCIL_MAPPING := by
    funext k
    unfold councilWeights
    have htot : ((constituenciesOf CONSTITUENCY_COUNCIL_MAPPING k).map
          (adjustedValue popT wfT)).sum =
        ((constituenciesOf CONSTITUENCY_COUNCIL_MAPPING k).map
          (adjustedValue popT [])).sum :=
      congrArg List.sum
        (List.map_congr_left (fun c hc => hadj c (hsub k c hc)))
    apply List.map_congr_left
    intro c hc
    have h1 : adjustedValue popT wfT c = adjustedValue popT [] c :=
      hadj c (hsub k c hc)
    have h2 : dictGet wfT c 1 = dictGet [] c 1 := by
      unfold dictGet
      rw [hdisj c (hsub k c hc)]
      rfl
    rw [htot, h1, h2]
  have hmain : calculate_wealth_adjusted_weights popT wfT =
      calculate_wealth_adjusted_weights popT [] := by
    unfold calculate_wealth_adjusted_weights calcWeights
    rw [hcw]
  refine ⟨hmain, ?_, ?_⟩
  · unfold analyze_constituencies
    rw [hmain, List.map_map]
    apply List.map_congr_left
    intro pr _
    rfl
  · intro row hrow
    unfold analyze_constituencies at hrow
    obtain ⟨pr, _, rfl⟩ := List.mem_map.mp hrow
    rfl

/-- Witness for C10: a mapping keyed by a GSS code. -/
theorem unmatched_wealth_keys_give_population_weights_witness :
    calculate_wealth_adjusted_weights [] [("S16000108", 5)] =
      calculate_wealth_adjusted_weights [] [] ∧
    (analyze_constituencies [] [("S16000108", 5)] "band_h").map
        (fun row => { row with wealth_data_source := "fallback_population_only" })
      = analyze_constituencies [] [] "fallback_population_only" ∧
    ∀ row ∈ analyze_constituencies [] [("S16000108", 5)] "band_h",
      row.wealth_data_source = "band_h" :=
  unmatched_wealth_keys_give_population_weights [] [("S16000108", 5)]
    (by decide)

/-! ## Concrete evaluation helpers for the rounding functions -/

theorem roundHalfEven_eq_of_lt (x : ℚ) (z : ℤ) (h1 : (z : ℚ) ≤ x)
    (h2 : x < z + 1 / 2) : roundHalfEven x = z := by
  have hfl : ⌊x⌋ = z := by
    rw [Int.floor_eq_iff]
    constructor
    · exact h1
    · linarith
  unfold roundHalfEven
  rw [hfl, if_pos]
  rw [hfl] at *
  linarith

theorem roundHalfEven_eq_of_gt (x : ℚ) (z : ℤ) (h1 : (z : ℚ) + 1 / 2 < x)
    (h2 : x < z + 1) : roundHalfEven x = z + 1 := by
  have hfl : ⌊x⌋ = z := by
    rw [Int.floor_eq_iff]
    constructor
    · linarith
    · linarith
  unfold roundHalfEven
  rw [hfl, if_neg (by linarith), if_pos (by linarith)]

theorem pyRound_eval_lt (x : ℚ) (n : ℕ) (z : ℤ) (h1 : (z : ℚ) ≤ x * 10 ^ n)
    (h2 : x * 10 ^ n < z + 1 / 2) : pyRound x n = z / 10 ^ n := by
  unfold pyRound
  rw [roundHalfEven_eq_of_lt _ z h1 h2]

theorem pyRound_eval_gt (x : ℚ) (n : ℕ) (z : ℤ) (h1 : (z : ℚ) + 1 / 2 < x * 10 ^ n)
    (h2 : x * 10 ^ n < z + 1) : pyRound x n = (z + 1) / 10 ^ n := by
  unfold pyRound
  rw [roundHalfEven_eq_of_gt _ z h1 h2]
  push_cast
  ring_nf

theorem pyRound_zero (n : ℕ) : pyRound 0 n = 0 := by
  rw [pyRound_eval_lt 0 n 0 (by norm_num) (by norm_num)]
  norm_num

/-! ## The result table, row by row -/

theorem analyze_ne_nil (popT : PopTable) (wfT : WealthFactors) (tag : String) :
    analyze_constituencies popT wfT tag ≠ [] := by
  intro h
  have hl := analyze_length popT wfT tag
  rw [h] at hl
  simp [EXPECTED_CONSTITUENCIES] at hl

theorem analyze_headI (popT : PopTable) (wfT : WealthFactors) (tag : String) :
    (analyze_constituencies popT wfT tag).headI =
      mkRow tag (calculate_wealth_adjusted_weights popT wfT).headI.1
        (calculate_wealth_adjusted_weights popT wfT).headI.2 := by
  unfold analyze_constituencies
  cases hl : calculate_wealth_adjusted_weights popT wfT with
  | nil => exact absurd hl (calc_ne_nil popT wfT)
  | cons a l => rfl

theorem total_sales_eq : total_sales = 429 := by
  unfold total_sales
  rw [show COUNCIL_DATA.map Prod.snd =
      [200, 35, 30, 25, 20, 15, 15, 12, 10, 10, 10, 8, 7, 6, 5, 5, 3, 2, 2,
       1, 1, 1, 1, 1, 1, 1, 1, 1, 0, 0, 0, 0] from by decide]
  norm_num

theorem total_stock_revenue_eq : total_stock_revenue = 4299634500 / 233 := by
  unfold total_stock_revenue avg_rate ESTIMATED_STOCK BAND_I_RATIO
    BAND_J_RATIO BAND_I_SURCHARGE BAND_J_SURCHARGE
  norm_num

theorem mkRow_share_pct (tag c : String) (e : WeightEntry) :
    (mkRow tag c e).share_pct =
      (if 0 < pyRound (dictGet COUNCIL_DATA e.council 0 * e.weight) 1
       then pyRound ((if 0 < total_sales
           then dictGet COUNCIL_DATA e.council 0 * e.weight / total_sales
           else 0) * 100) 2
       else 0) := rfl

theorem mkRow_allocated_revenue (tag c : String) (e : WeightEntry) :
    (mkRow tag c e).allocated_revenue =
      pyRound ((mkRow tag c e).share_pct / 100 * total_stock_revenue) 0 := rfl

theorem mkRow_share_pct_spFun (tag c : String) (e : WeightEntry) :
    (mkRow tag c e).share_pct = spFun (constituencySales e) := by
  rw [mkRow_share_pct]
  unfold spFun constituencySales
  rw [total_sales_eq, if_pos (by norm_num : (0:ℚ) < 429)]

/-! ## Nonnegativity under the input contract -/

theorem dictGet_nonneg (d : List (String × ℚ)) (k : String) (dflt : ℚ)
    (h : ∀ p ∈ d, 0 ≤ p.2) (hd : 0 ≤ dflt) : 0 ≤ dictGet d k dflt := by
  unfold dictGet
  cases hf : d.find? (fun r => r.1 == k) with
  | none => exact hd
  | some r => exact h r (List.mem_of_find?_eq_some hf)

theorem adjustedValue_nonneg (popT : PopTable) (wfT : WealthFactors)
    (hpop : ∀ p ∈ popT, 0 < p.2) (hwf : ∀ w ∈ wfT, 0 ≤ w.2) (c : String) :
    0 ≤ adjustedValue popT wfT c :=
  mul_nonneg (lookupPopulation_pos popT hpop c).le
    (dictGet_nonneg wfT c 1 hwf (by norm_num))

theorem council_data_nonneg (k : String) : 0 ≤ dictGet COUNCIL_DATA k 0 :=
  dictGet_nonneg COUNCIL_DATA k 0 (by decide) le_rfl

theorem weight_nonneg_le_one (popT : PopTable) (wfT : WealthFactors)
    (hpop : ∀ p ∈ popT, 0 < p.2) (hwf : ∀ w ∈ wfT, 0 ≤ w.2)
    (pr : String × WeightEntry)
    (h : pr ∈ calculate_wealth_adjusted_weights popT wfT) :
    0 ≤ pr.2.weight ∧ pr.2.weight ≤ 1 := by
  obtain ⟨hk, hc, -, -, hw⟩ :=
    calcWeights_mem popT wfT CONSTITUENCY_COUNCIL_MAPPING pr h
  rw [hw]
  split_ifs with htot
  · have hmemnn : 0 ≤ adjustedValue popT wfT pr.1 :=
      adjustedValue_nonneg popT wfT hpop hwf pr.1
    have hle : adjustedValue popT wfT pr.1 ≤
        totalAdjusted popT wfT CONSTITUENCY_COUNCIL_MAPPING pr.2.council := by
      unfold totalAdjusted
      apply List.single_le_sum
      · intro x hx
        obtain ⟨c, _, rfl⟩ := List.mem_map.mp hx
        exact adjustedValue_nonneg popT wfT hpop hwf c
      · exact List.mem_map_of_mem _ hc
    exact ⟨div_nonneg hmemnn htot.le, (div_le_one htot).mpr hle⟩
  · have hlen : 0 < ((constituenciesOf CONSTITUENCY_COUNCIL_MAPPING
        pr.2.council).length : ℚ) := by
      have := List.length_pos_of_ne_nil (constituenciesOf_ne_nil hk)
      exact_mod_cast this
    constructor
    · positivity
    · rw [div_le_one hlen]
      have : (1 : ℚ) ≤ ((constituenciesOf CONSTITUENCY_COUNCIL_MAPPING
          pr.2.council).length : ℚ) := by
        have := List.length_pos_of_ne_nil (constituenciesOf_ne_nil hk)
        exact_mod_cast this
      exact this

theorem constituencySales_nonneg (popT : PopTable) (wfT : WealthFactors)
    (hpop : ∀ p ∈ popT, 0 < p.2) (hwf : ∀ w ∈ wfT, 0 ≤ w.2)
    (pr : String × WeightEntry)
    (h : pr ∈ calculate_wealth_adjusted_weights popT wfT) :
    0 ≤ constituencySales pr.2 := by
  unfold constituencySales
  exact mul_nonneg (council_data_nonneg pr.2.council)
    (weight_nonneg_le_one popT wfT hpop hwf pr h).1

/-! ## Bounds on the share-percentage column -/

theorem spFun_upper (s : ℚ) (hs : 0 ≤ s) : spFun s ≤ s * (100 / 429) + 1 / 200 := by
  unfold spFun
  split_ifs with h
  · have habs := pyRound_sub_abs (s / 429 * 100) 2
    rw [abs_le] at habs
    have h2 : (1 : ℚ) / (2 * 10 ^ 2) = 1 / 200 := by norm_num
    rw [h2] at habs
    have he : s / 429 * 100 = s * (100 / 429) := by ring
    linarith [habs.2]
  · positivity

theorem spFun_lower (s : ℚ) (hs : 0 ≤ s) :
    s * (100 / 429) - (1 / 200 + 5 / 429) ≤ spFun s := by
  unfold spFun
  split_ifs with h
  · have habs := pyRound_sub_abs (s / 429 * 100) 2
    rw [abs_le] at habs
    have h2 : (1 : ℚ) / (2 * 10 ^ 2) = 1 / 200 := by norm_num
    rw [h2] at habs
    have he : s / 429 * 100 = s * (100 / 429) := by ring
    linarith [habs.1]
  · have hs20 : s ≤ 1 / 20 := by
      by_contra hgt
      push_neg at hgt
      have : 0 < pyRound s 1 := by
        rw [pyRound_pos_iff]
        norm_num
        linarith
      exact h this
    nlinarith

theorem spFun_lower_kept (s : ℚ) (hk : 1 / 20 < s) :
    s * (100 / 429) - 1 / 200 ≤ spFun s := by
  unfold spFun
  rw [if_pos]
  · have habs := pyRound_sub_abs (s / 429 * 100) 2
    rw [abs_le] at habs
    have h2 : (1 : ℚ) / (2 * 10 ^ 2) = 1 / 200 := by norm_num
    rw [h2] at habs
    have he : s / 429 * 100 = s * (100 / 429) := by ring
    linarith [habs.1]
  · rw [pyRound_pos_iff]
    norm_num
    linarith

theorem spFun_nonneg (s : ℚ) : 0 ≤ spFun s := by
  unfold spFun
  split_ifs with h
  · apply pyRound_nonneg
    have hs := (pyRound_pos_iff s 1).mp h
    have : (0 : ℚ) < s := by
      have : (0:ℚ) < 1 / (2 * 10 ^ 1) := by norm_num
      linarith
    positivity
  · exact le_rfl

/-! ## Summation helpers -/

theorem sum_map_affine (l : List ℚ) (a b : ℚ) :
    (l.map (fun s => s * a - b)).sum = l.sum * a - l.length * b := by
  induction l with
  | nil => simp
  | cons x l ih =>
      simp only [List.map_cons, List.sum_cons, List.length_cons, ih]
      push_cast
      ring

theorem sum_abs_le {α : Type} (l : List α) (f g : α → ℚ) (c : ℚ)
    (h : ∀ a ∈ l, |f a - g a| ≤ c) :
    |(l.map f).sum - (l.map g).sum| ≤ l.length * c := by
  induction l with
  | nil => simp
  | cons a l ih =>
      simp only [List.map_cons, List.sum_cons, List.length_cons]
      have h1 := h a (List.mem_cons_self _ _)
      have h2 := ih (fun b hb => h b (List.mem_cons_of_mem _ hb))
      have he : f a + (l.map f).sum - (g a + (l.map g).sum) =
          (f a - g a) + ((l.map f).sum - (l.map g).sum) := by ring
      rw [he]
      calc |(f a - g a) + ((l.map f).sum - (l.map g).sum)|
          ≤ |f a - g a| + |(l.map f).sum - (l.map g).sum| := abs_add _ _
        _ ≤ c + l.length * c := add_le_add h1 h2
        _ = (l.length + 1) * c := by ring
        _ = ((l.length + 1 : ℕ) : ℚ) * c := by push_cast; ring

theorem sum_map_affine' {α : Type} (l : List α) (f : α → ℚ) (a b : ℚ) :
    (l.map (fun x => f x * a + b)).sum = (l.map f).sum * a + l.length * b := by
  induction l with
  | nil => simp
  | cons x l ih =>
      simp only [List.map_cons, List.sum_cons, List.length_cons, ih]
      push_cast
      ring

theorem spFun_zero : spFun 0 = 0 := by
  unfold spFun
  rw [pyRound_zero]
  simp

/-- One council's share percentages: if the observed count `c` is positive
and exceeds `n/20` (true of all councils in `COUNCIL_DATA`), at most `n − 1`
of the constituencies can be dropped by the `rounded-count = 0` rule, each
carrying at most 1/20 of a sale; this lower-bounds the council's total share
percentage. -/
theorem council_sp_lower (l : List ℚ) (c : ℚ) (hs : ∀ s ∈ l, 0 ≤ s)
    (hsum : l.sum = c)
    (hc : 0 < c → (l.length : ℚ) / 20 < c) :
    100 / 429 * (c - (if 0 < c then ((l.length : ℚ) - 1) / 20 else 0))
      - l.length / 200 ≤ (l.map spFun).sum := by
  by_cases hpos : 0 < c
  · have hn : l ≠ [] := by
      intro h
      rw [h] at hsum
      simp at hsum
      rw [← hsum] at hpos
      exact lt_irrefl 0 hpos
    have hlen : 0 < l.length := List.length_pos_of_ne_nil hn
    have hlenq : (0 : ℚ) < l.length := by exact_mod_cast hlen
    have hcn := hc hpos
    have hex : ∃ s₀ ∈ l, c / l.length ≤ s₀ := by
      by_contra hno
      push_neg at hno
      have hid : l.sum = (l.map id).sum := by simp
      have hlt : (l.map id).sum < (l.map (fun _ => c / l.length)).sum := by
        apply List.sum_lt_sum
        · intro i hi
          exact (hno i hi).le
        · obtain ⟨a, ha⟩ := List.exists_mem_of_ne_nil l hn
          exact ⟨a, ha, hno a ha⟩
      have hconst : (l.map (fun _ => c / l.length)).sum = c := by
        rw [List.map_const', List.sum_replicate, nsmul_eq_mul]
        field_simp
      rw [← hid, hconst, hsum] at hlt
      exact lt_irrefl c hlt
    obtain ⟨s₀, hs₀mem, hs₀⟩ := hex
    have hs₀20 : 1 / 20 < s₀ := by
      have h1 : (1 : ℚ) / 20 < c / l.length := by
        rw [lt_div_iff₀ hlenq]
        calc (1 : ℚ) / 20 * l.length = (l.length : ℚ) / 20 := by ring
          _ < c := hcn
      linarith
    obtain ⟨l₁, l₂, rfl⟩ := List.append_of_mem hs₀mem
    rw [List.map_append, List.map_cons, List.sum_append, List.sum_cons]
    have hb₁ : ((l₁.map (fun s => s * (100 / 429) - (1 / 200 + 5 / 429)))).sum
        ≤ (l₁.map spFun).sum := by
      apply List.sum_le_sum
      intro s hsl
      exact spFun_lower s (hs s (List.mem_append_left _ hsl))
    have hb₂ : ((l₂.map (fun s => s * (100 / 429) - (1 / 200 + 5 / 429)))).sum
        ≤ (l₂.map spFun).sum := by
      apply List.sum_le_sum
      intro s hsl
      exact spFun_lower s
        (hs s (List.mem_append_right _ (List.mem_cons_of_mem _ hsl)))
    have hb₀ : s₀ * (100 / 429) - 1 / 200 ≤ spFun s₀ := spFun_lower_kept s₀ hs₀20
    rw [sum_map_affine] at hb₁ hb₂
    have hsum' : l₁.sum + (s₀ + l₂.sum) = c := by
      rw [← hsum, List.sum_append, List.sum_cons]
    have hlen' : ((l₁ ++ s₀ :: l₂).length : ℚ) =
        (l₁.length : ℚ) + (l₂.length : ℚ) + 1 := by
      rw [List.length_append, List.length_cons]
      push_cast
      ring
    rw [if_pos hpos, hlen']
    linarith
  · have hnn : 0 ≤ c := hsum ▸ List.sum_nonneg hs
    have hc0 : c = 0 := le_antisymm (not_lt.mp hpos) hnn
    have hzero : ∀ s ∈ l, s = 0 := by
      intro s hsl
      have h1 : s ≤ l.sum := List.single_le_sum hs s hsl
      have h2 := hs s hsl
      rw [hsum, hc0] at h1
      linarith
    have hmap : l.map spFun = l.map (fun _ => (0 : ℚ)) :=
      List.map_congr_left (fun s hsl => by rw [hzero s hsl, spFun_zero])
    rw [hmap, if_neg hpos, hc0]
    have h0 : (l.map (fun _ => (0 : ℚ))).sum = 0 := by
      rw [List.map_const', List.sum_replicate]
      simp
    rw [h0]
    have : (0 : ℚ) ≤ (l.length : ℚ) / 200 := by positivity
    linarith

theorem sum_flatMap_ge (popT : PopTable) (wfT : WealthFactors)
    (L : List String) (bound : String → ℚ)
    (h : ∀ k ∈ L, bound k ≤
      ((councilWeights popT wfT CONSTITUENCY_COUNCIL_MAPPING k).map
        (fun pr => spFun (constituencySales pr.2))).sum) :
    (L.map bound).sum ≤
      ((L.flatMap (councilWeights popT wfT CONSTITUENCY_COUNCIL_MAPPING)).map
        (fun pr => spFun (constituencySales pr.2))).sum := by
  induction L with
  | nil => simp
  | cons k L ih =>
      rw [List.map_cons, List.sum_cons, List.flatMap_cons, List.map_append,
        List.sum_append]
      exact add_le_add (h k (List.mem_cons_self _ _))
        (ih (fun k' hk' => h k' (List.mem_cons_of_mem _ hk')))

theorem council_count_bound :
    ∀ k ∈ councilsIn CONSTITUENCY_COUNCIL_MAPPING,
      0 < dictGet COUNCIL_DATA k 0 →
      ((constituenciesOf CONSTITUENCY_COUNCIL_MAPPING k).length : ℚ) / 20 <
        dictGet COUNCIL_DATA k 0 := by
  intro k hk h
  have hall : ∀ k' ∈ councilsIn CONSTITUENCY_COUNCIL_MAPPING,
      (constituenciesOf CONSTITUENCY_COUNCIL_MAPPING k').length < 20 := by
    decide
  have hall2 : ∀ k' ∈ councilsIn CONSTITUENCY_COUNCIL_MAPPING,
      0 < dictGet COUNCIL_DATA k' 0 → 1 ≤ dictGet COUNCIL_DATA k' 0 := by
    decide
  have h1 := hall k hk
  have h2 := hall2 k hk h
  have hq : ((constituenciesOf CONSTITUENCY_COUNCIL_MAPPING k).length : ℚ)
      ≤ 19 := by
    exact_mod_cast Nat.lt_succ_iff.mp h1
  calc ((constituenciesOf CONSTITUENCY_COUNCIL_MAPPING k).length : ℚ) / 20
      ≤ 19 / 20 := by linarith
    _ < 1 := by norm_num
    _ ≤ dictGet COUNCIL_DATA k 0 := h2

theorem sum_sales_eq_429 (popT : PopTable) (wfT : WealthFactors) :
    ((calculate_wealth_adjusted_weights popT wfT).map
      (fun pr => constituencySales pr.2)).sum = 429 := by
  unfold calculate_wealth_adjusted_weights
  rw [sum_sales_calcWeights]
  rw [show (councilsIn CONSTITUENCY_COUNCIL_MAPPING).map
      (fun k => dictGet COUNCIL_DATA k 0) =
      [200, 35, 30, 25, 20, 15, 15, 12, 10, 10, 10, 8, 7, 6, 5, 5, 3, 2, 2,
       1, 1, 1, 1, 1, 1, 1, 1, 0, 1, 0, 0, 0] from by decide]
  norm_num

theorem council_block_sp_lower (popT : PopTable) (wfT : WealthFactors)
    (hpop : ∀ p ∈ popT, 0 < p.2) (hwf : ∀ w ∈ wfT, 0 ≤ w.2) (k : String)
    (hk : k ∈ councilsIn CONSTITUENCY_COUNCIL_MAPPING) :
    100 / 429 * (dictGet COUNCIL_DATA k 0 -
        (if 0 < dictGet COUNCIL_DATA k 0
         then (((constituenciesOf CONSTITUENCY_COUNCIL_MAPPING k).length : ℚ)
             - 1) / 20
         else 0)) -
      ((constituenciesOf CONSTITUENCY_COUNCIL_MAPPING k).length : ℚ) / 200 ≤
    ((councilWeights popT wfT CONSTITUENCY_COUNCIL_MAPPING k).map
      (fun pr => spFun (constituencySales pr.2))).sum := by
  have hs' : ∀ s ∈ (councilWeights popT wfT CONSTITUENCY_COUNCIL_MAPPING
      k).map (fun pr => constituencySales pr.2), 0 ≤ s := by
    intro s hsl
    obtain ⟨pr, hpr, rfl⟩ := List.mem_map.mp hsl
    apply constituencySales_nonneg popT wfT hpop hwf pr
    have hm : pr ∈ calcWeights popT wfT CONSTITUENCY_COUNCIL_MAPPING :=
      List.mem_flatMap.mpr ⟨k, hk, hpr⟩
    exact hm
  have hsum' : ((councilWeights popT wfT CONSTITUENCY_COUNCIL_MAPPING k).map
      (fun pr => constituencySales pr.2)).sum = dictGet COUNCIL_DATA k 0 :=
    sum_sales_councilWeights popT wfT _ k (constituenciesOf_ne_nil hk)
  have hc' : 0 < dictGet COUNCIL_DATA k 0 →
      ((((councilWeights popT wfT CONSTITUENCY_COUNCIL_MAPPING k).map
        (fun pr => constituencySales pr.2)).length : ℚ)) / 20 <
        dictGet COUNCIL_DATA k 0 := by
    rw [List.length_map, councilWeights_length]
    exact council_count_bound k hk
  have h := council_sp_lower _ _ hs' hsum' hc'
  rw [List.length_map, councilWeights_length, List.map_map] at h
  exact h

theorem sum_sp_lower_global (popT : PopTable) (wfT : WealthFactors)
    (hpop : ∀ p ∈ popT, 0 < p.2) (hwf : ∀ w ∈ wfT, 0 ≤ w.2) :
    100 - 205 / 429 - 73 / 200 ≤
      ((calculate_wealth_adjusted_weights popT wfT).map
        (fun pr => spFun (constituencySales pr.2))).sum := by
  unfold calculate_wealth_adjusted_weights calcWeights
  have hflat := sum_flatMap_ge popT wfT (councilsIn CONSTITUENCY_COUNCIL_MAPPING)
    (fun k => 100 / 429 * (dictGet COUNCIL_DATA k 0 -
        (if 0 < dictGet COUNCIL_DATA k 0
         then (((constituenciesOf CONSTITUENCY_COUNCIL_MAPPING k).length : ℚ)
             - 1) / 20
         else 0)) -
      ((constituenciesOf CONSTITUENCY_COUNCIL_MAPPING k).length : ℚ) / 200)
    (fun k hk => council_block_sp_lower popT wfT hpop hwf k hk)
  refine le_trans ?_ hflat
  rw [councilsIn_MAPPING]
  simp only [List.map_cons, List.map_nil, List.sum_cons, List.sum_nil]
  rw [show dictGet COUNCIL_DATA "City of Edinburgh" 0 = 200 from by decide,
    show dictGet COUNCIL_DATA "East Lothian" 0 = 35 from by decide,
    show dictGet COUNCIL_DATA "Fife" 0 = 30 from by decide,
    show dictGet COUNCIL_DATA "East Dunbartonshire" 0 = 25 from by decide,
    show dictGet COUNCIL_DATA "Aberdeen City" 0 = 20 from by decide,
    show dictGet COUNCIL_DATA "Aberdeenshire" 0 = 15 from by decide,
    show dictGet COUNCIL_DATA "Glasgow City" 0 = 15 from by decide,
    show dictGet COUNCIL_DATA "Perth and Kinross" 0 = 12 from by decide,
    show dictGet COUNCIL_DATA "Stirling" 0 = 10 from by decide,
    show dictGet COUNCIL_DATA "Highland" 0 = 10 from by decide,
    show dictGet COUNCIL_DATA "East Renfrewshire" 0 = 10 from by decide,
    show dictGet COUNCIL_DATA "Scottish Borders" 0 = 8 from by decide,
    show dictGet COUNCIL_DATA "South Ayrshire" 0 = 7 from by decide,
    show dictGet COUNCIL_DATA "Argyll and Bute" 0 = 6 from by decide,
    show dictGet COUNCIL_DATA "Midlothian" 0 = 5 from by decide,
    show dictGet COUNCIL_DATA "West Lothian" 0 = 5 from by decide,
    show dictGet COUNCIL_DATA "South Lanarkshire" 0 = 3 from by decide,
    show dictGet COUNCIL_DATA "North Lanarkshire" 0 = 2 from by decide,
    show dictGet COUNCIL_DATA "Renfrewshire" 0 = 2 from by decide,
    show dictGet COUNCIL_DATA "Inverclyde" 0 = 1 from by decide,
    show dictGet COUNCIL_DATA "Falkirk" 0 = 1 from by decide,
    show dictGet COUNCIL_DATA "Clackmannanshire" 0 = 1 from by decide,
    show dictGet COUNCIL_DATA "Dumfries and Galloway" 0 = 1 from by decide,
    show dictGet COUNCIL_DATA "Dundee City" 0 = 1 from by decide,
    show dictGet COUNCIL_DATA "Angus" 0 = 1 from by decide,
    show dictGet COUNCIL_DATA "Moray" 0 = 1 from by decide,
    show dictGet COUNCIL_DATA "North Ayrshire" 0 = 1 from by decide,
    show dictGet COUNCIL_DATA "East Ayrshire" 0 = 0 from by decide,
    show dictGet COUNCIL_DATA "West Dunbartonshire" 0 = 1 from by decide,
    show dictGet COUNCIL_DATA "Eilean Siar" 0 = 0 from by decide,
    show dictGet COUNCIL_DATA "Orkney Islands" 0 = 0 from by decide,
    show dictGet COUNCIL_DATA "Shetland Islands" 0 = 0 from by decide,
    show (constituenciesOf CONSTITUENCY_COUNCIL_MAPPING "City of Edinburgh").length = 6 from by decide,
    show (constituenciesOf CONSTITUENCY_COUNCIL_MAPPING "East Lothian").length = 1 from by decide,
    show (constituenciesOf CONSTITUENCY_COUNCIL_MAPPING "Fife").length = 5 from by decide,
    show (constituenciesOf CONSTITUENCY_COUNCIL_MAPPING "East Dunbartonshire").length = 1 from by decide,
    show (constituenciesOf CONSTITUENCY_COUNCIL_MAPPING "Aberdeen City").length = 3 from by decide,
    show (constituenciesOf CONSTITUENCY_COUNCIL_MAPPING "Aberdeenshire").length = 3 from by decide,
    show (constituenciesOf CONSTITUENCY_COUNCIL_MAPPING "Glasgow City").length = 9 from by decide,
    show (constituenciesOf CONSTITUENCY_COUNCIL_MAPPING "Perth and Kinross").length = 2 from by decide,
    show (constituenciesOf CONSTITUENCY_COUNCIL_MAPPING "Stirling").length = 1 from by decide,
    show (constituenciesOf CONSTITUENCY_COUNCIL_MAPPING "Highland").length = 3 from by decide,
    show (constituenciesOf CONSTITUENCY_COUNCIL_MAPPING "East Renfrewshire").length = 1 from by decide,
    show (constituenciesOf CONSTITUENCY_COUNCIL_MAPPING "Scottish Borders").length = 2 from by decide,
    show (constituenciesOf CONSTITUENCY_COUNCIL_MAPPING "South Ayrshire").length = 2 from by decide,
    show (constituenciesOf CONSTITUENCY_COUNCIL_MAPPING "Argyll and Bute").length = 1 from by decide,
    show (constituenciesOf CONSTITUENCY_COUNCIL_MAPPING "Midlothian").length = 1 from by decide,
    show (constituenciesOf CONSTITUENCY_COUNCIL_MAPPING "West Lothian").length = 2 from by decide,
    show (constituenciesOf CONSTITUENCY_COUNCIL_MAPPING "South Lanarkshire").length = 4 from by decide,
    show (constituenciesOf CONSTITUENCY_COUNCIL_MAPPING "North Lanarkshire").length = 4 from by decide,
    show (constituenciesOf CONSTITUENCY_COUNCIL_MAPPING "Renfrewshire").length = 3 from by decide,
    show (constituenciesOf CONSTITUENCY_COUNCIL_MAPPING "Inverclyde").length = 1 from by decide,
    show (constituenciesOf CONSTITUENCY_COUNCIL_MAPPING "Falkirk").length = 2 from by decide,
    show (constituenciesOf CONSTITUENCY_COUNCIL_MAPPING "Clackmannanshire").length = 1 from by decide,
    show (constituenciesOf CONSTITUENCY_COUNCIL_MAPPING "Dumfries and Galloway").length = 2 from by decide,
    show (constituenciesOf CONSTITUENCY_COUNCIL_MAPPING "Dundee City").length = 2 from by decide,
    show (constituenciesOf CONSTITUENCY_COUNCIL_MAPPING "Angus").length = 2 from by decide,
    show (constituenciesOf CONSTITUENCY_COUNCIL_MAPPING "Moray").length = 1 from by decide,
    show (constituenciesOf CONSTITUENCY_COUNCIL_MAPPING "North Ayrshire").length = 2 from by decide,
    show (constituenciesOf CONSTITUENCY_COUNCIL_MAPPING "East Ayrshire").length = 1 from by decide,
    show (constituenciesOf CONSTITUENCY_COUNCIL_MAPPING "West Dunbartonshire").length = 2 from by decide,
    show (constituenciesOf CONSTITUENCY_COUNCIL_MAPPING "Eilean Siar").length = 1 from by decide,
    show (constituenciesOf CONSTITUENCY_COUNCIL_MAPPING "Orkney Islands").length = 1 from by decide,
    show (constituenciesOf CONSTITUENCY_COUNCIL_MAPPING "Shetland Islands").length = 1 from by decide]
  norm_num

theorem sum_sp_upper_global (popT : PopTable) (wfT : WealthFactors)
    (hpop : ∀ p ∈ popT, 0 < p.2) (hwf : ∀ w ∈ wfT, 0 ≤ w.2) :
    ((calculate_wealth_adjusted_weights popT wfT).map
      (fun pr => spFun (constituencySales pr.2))).sum ≤ 100 + 73 / 200 := by
  have h1 : ((calculate_wealth_adjusted_weights popT wfT).map
      (fun pr => spFun (constituencySales pr.2))).sum ≤
      ((calculate_wealth_adjusted_weights popT wfT).map
        (fun pr => constituencySales pr.2 * (100 / 429) + 1 / 200)).sum := by
    apply List.sum_le_sum
    intro pr hpr
    exact spFun_upper _ (constituencySales_nonneg popT wfT hpop hwf pr hpr)
  have h2 := sum_map_affine' (calculate_wealth_adjusted_weights popT wfT)
    (fun pr => constituencySales pr.2) (100 / 429) (1 / 200)
  rw [h2, sum_sales_eq_429, calculate_weights_length] at h1
  calc ((calculate_wealth_adjusted_weights popT wfT).map
      (fun pr => spFun (constituencySales pr.2))).sum
      ≤ 429 * (100 / 429) + (EXPECTED_CONSTITUENCIES : ℚ) * (1 / 200) := h1
    _ = 100 + 73 / 200 := by norm_num [EXPECTED_CONSTITUENCIES]

/-! ## Claim C3 -/

/-- C3 (amended): for every input satisfying the spec's input contract
(positive populations, nonnegative wealth factors), every output row's
`allocated_revenue` equals `share_pct/100 × (ESTIMATED_STOCK ×
weighted_average_rate)` rounded half-to-even to the nearest unit — the
rounding that `.round(0)` performs — and the sum of `allocated_revenue` over
all output rows equals `ESTIMATED_STOCK × weighted_average_rate` within 1 %.
The counterexample forces both changes: exact per-row equality fails by the
final rounding, and without the input contract a negative wealth factor
breaks the 1 % total. -/
theorem allocated_revenue_formula_and_total (popT : PopTable)
    (wfT : WealthFactors) (tag : String) (hpop : ∀ p ∈ popT, 0 < p.2)
    (hwf : ∀ w ∈ wfT, 0 ≤ w.2) :
    (∀ row ∈ analyze_constituencies popT wfT tag,
      row.allocated_revenue =
        pyRound (row.share_pct / 100 * total_stock_revenue) 0) ∧
    |((analyze_constituencies popT wfT tag).map
        (fun r => r.allocated_revenue)).sum - total_stock_revenue| ≤
      total_stock_revenue / 100 := by
  constructor
  · intro row hrow
    unfold analyze_constituencies at hrow
    obtain ⟨pr, hpr, rfl⟩ := List.mem_map.mp hrow
    exact mkRow_allocated_revenue tag pr.1 pr.2
  · have hspmap : (analyze_constituencies popT wfT tag).map
        (fun r => r.share_pct) =
        (calculate_wealth_adjusted_weights popT wfT).map
          (fun pr => spFun (constituencySales pr.2)) := by
      unfold analyze_constituencies
      rw [List.map_map]
      exact List.map_congr_left (fun pr _ => mkRow_share_pct_spFun tag pr.1 pr.2)
    have habs : |((analyze_constituencies popT wfT tag).map
        (fun r => r.allocated_revenue)).sum -
        ((analyze_constituencies popT wfT tag).map
          (fun r => r.share_pct * (total_stock_revenue / 100))).sum| ≤
        ((analyze_constituencies popT wfT tag).length : ℚ) * (1 / 2) := by
      apply sum_abs_le
      intro row hrow
      unfold analyze_constituencies at hrow
      obtain ⟨pr, hpr, rfl⟩ := List.mem_map.mp hrow
      rw [mkRow_allocated_revenue]
      have h := pyRound_sub_abs
        ((mkRow tag pr.1 pr.2).share_pct / 100 * total_stock_revenue) 0
      have he : (mkRow tag pr.1 pr.2).share_pct * (total_stock_revenue / 100)
          = (mkRow tag pr.1 pr.2).share_pct / 100 * total_stock_revenue := by
        ring
      rw [he]
      norm_num at h
      exact h
    have hmul : ((analyze_constituencies popT wfT tag).map
        (fun r => r.share_pct * (total_stock_revenue / 100))).sum =
        ((analyze_constituencies popT wfT tag).map
          (fun r => r.share_pct)).sum * (total_stock_revenue / 100) :=
      List.sum_map_mul_right _ _ _
    rw [hmul, hspmap, analyze_length] at habs
    have hcast : ((EXPECTED_CONSTITUENCIES : ℕ) : ℚ) = 73 := by
      norm_num [EXPECTED_CONSTITUENCIES]
    rw [hcast] at habs
    have hlow := sum_sp_lower_global popT wfT hpop hwf
    have hup := sum_sp_upper_global popT wfT hpop hwf
    rw [abs_le] at habs ⊢
    rw [total_stock_revenue_eq] at habs ⊢
    obtain ⟨habs1, habs2⟩ := habs
    constructor
    · linarith
    · linarith

/-- Witness for C3 (amended): empty inputs. -/
theorem allocated_revenue_formula_and_total_witness :
    (∀ row ∈ analyze_constituencies [] [] "fallback_population_only",
      row.allocated_revenue =
        pyRound (row.share_pct / 100 * total_stock_revenue) 0) ∧
    |((analyze_constituencies [] [] "fallback_population_only").map
        (fun r => r.allocated_revenue)).sum - total_stock_revenue| ≤
      total_stock_revenue / 100 :=
  allocated_revenue_formula_and_total [] [] "fallback_population_only"
    (by simp) (by simp)

theorem allocated_revenue_nonneg (popT : PopTable) (wfT : WealthFactors)
    (tag : String) :
    ∀ row ∈ analyze_constituencies popT wfT tag, 0 ≤ row.allocated_revenue := by
  intro row hrow
  unfold analyze_constituencies at hrow
  obtain ⟨pr, hpr, rfl⟩ := List.mem_map.mp hrow
  rw [mkRow_allocated_revenue]
  apply pyRound_nonneg
  have hsp : 0 ≤ (mkRow tag pr.1 pr.2).share_pct := by
    rw [mkRow_share_pct_spFun]
    exact spFun_nonneg _
  have hR : (0 : ℚ) ≤ total_stock_revenue := by
    rw [total_stock_revenue_eq]
    norm_num
  exact mul_nonneg (div_nonneg hsp (by norm_num)) hR

theorem spFun_one_sixth_of_200 : spFun (100 / 3) = 777 / 100 := by
  unfold spFun
  rw [pyRound_eval_lt (100 / 3) 1 333 (by norm_num) (by norm_num)]
  rw [if_pos (by norm_num : (0 : ℚ) < ((333 : ℤ) : ℚ) / 10 ^ 1)]
  rw [show (100 : ℚ) / 3 / 429 * 100 = 10000 / 1287 from by norm_num]
  rw [pyRound_eval_lt (10000 / 1287) 2 777 (by norm_num) (by norm_num)]
  norm_num

theorem spFun_adversarial : spFun 3200 = 74592 / 100 := by
  unfold spFun
  rw [pyRound_eval_lt (3200 : ℚ) 1 32000 (by norm_num) (by norm_num)]
  rw [if_pos (by norm_num : (0 : ℚ) < ((32000 : ℤ) : ℚ) / 10 ^ 1)]
  rw [show (3200 : ℚ) / 429 * 100 = 320000 / 429 from by norm_num]
  rw [pyRound_eval_lt (320000 / 429) 2 74592 (by norm_num) (by norm_num)]
  norm_num

/-- C3 counterexample: the claim as stated fails.  At the fallback input the
first output row's `allocated_revenue` (an integer, produced by `.round(0)`)
differs from the exact `share_pct/100 × total revenue`; and at an input with
a negative wealth factor the row shares of the zeroed-out negative rows are
discarded, so the summed `allocated_revenue` exceeds the total revenue
estimate by far more than 1 %. -/
theorem revenue_claim_cex :
    (analyze_constituencies [] [] "fallback_population_only").headI.allocated_revenue
        ≠ (analyze_constituencies [] [] "fallback_population_only").headI.share_pct
          / 100 * total_stock_revenue ∧
    total_stock_revenue + total_stock_revenue / 100 <
      ((analyze_constituencies [] adversarialFactors "band_h").map
        (fun r => r.allocated_revenue)).sum := by
  constructor
  · have htot : totalAdjusted [] [] CONSTITUENCY_COUNCIL_MAPPING
        "City of Edinburgh" = 450000 := by
      unfold totalAdjusted
      rw [constituenciesOf_Edinburgh]
      simp [adjustedValue, lookupPopulation, dictGet, List.find?]
      norm_num
    have hadj : adjustedValue [] [] "Edinburgh Central" = 75000 := by
      simp [adjustedValue, lookupPopulation, dictGet, List.find?]
    have hentry : (calculate_wealth_adjusted_weights [] []).headI =
        ("Edinburgh Central",
          { council := "City of Edinburgh", population := 75000,
            wealth_factor := 1, weight := 1 / 6 }) := by
      rw [calc_headI_eq, councilWeights_Edinburgh_headI, htot, hadj]
      norm_num [lookupPopulation, dictGet, List.find?]
    have hsales : constituencySales
        { council := "City of Edinburgh", population := 75000,
          wealth_factor := 1, weight := 1 / 6 } = 100 / 3 := by
      show dictGet COUNCIL_DATA "City of Edinburgh" 0 * (1 / 6 : ℚ) = 100 / 3
      rw [show dictGet COUNCIL_DATA "City of Edinburgh" 0 = 200 from by decide]
      norm_num
    have hsp : (mkRow "fallback_population_only" "Edinburgh Central"
        { council := "City of Edinburgh", population := 75000,
          wealth_factor := 1, weight := 1 / 6 }).share_pct = 777 / 100 := by
      rw [mkRow_share_pct_spFun, hsales, spFun_one_sixth_of_200]
    have halloc : (mkRow "fallback_population_only" "Edinburgh Central"
        { council := "City of Edinburgh", population := 75000,
          wealth_factor := 1, weight := 1 / 6 }).allocated_revenue
        = 1433827 := by
      rw [mkRow_allocated_revenue, hsp, total_stock_revenue_eq]
      rw [pyRound_eval_gt (777 / 100 / 100 * (4299634500 / 233)) 0 1433826
        (by norm_num) (by norm_num)]
      norm_num
    rw [analyze_headI, hentry, halloc, hsp, total_stock_revenue_eq]
    norm_num
  · have htotB : totalAdjusted [] adversarialFactors
        CONSTITUENCY_COUNCIL_MAPPING "City of Edinburgh" = 75000 := by
      unfold totalAdjusted
      rw [constituenciesOf_Edinburgh]
      simp [adjustedValue, lookupPopulation, dictGet, adversarialFactors,
        List.find?]
      norm_num
    have hadjB : adjustedValue [] adversarialFactors "Edinburgh Central"
        = 1200000 := by
      simp [adjustedValue, lookupPopulation, dictGet, adversarialFactors,
        List.find?]
      norm_num
    have hentryB : (calculate_wealth_adjusted_weights []
        adversarialFactors).headI =
        ("Edinburgh Central",
          { council := "City of Edinburgh", population := 75000,
            wealth_factor := 16, weight := 16 }) := by
      rw [calc_headI_eq, councilWeights_Edinburgh_headI, htotB, hadjB]
      norm_num [lookupPopulation, dictGet, adversarialFactors, List.find?]
    have hsalesB : constituencySales
        { council := "City of Edinburgh", population := 75000,
          wealth_factor := 16, weight := 16 } = 3200 := by
      show dictGet COUNCIL_DATA "City of Edinburgh" 0 * (16 : ℚ) = 3200
      rw [show dictGet COUNCIL_DATA "City of Edinburgh" 0 = 200 from by decide]
      norm_num
    have hspB : (mkRow "band_h" "Edinburgh Central"
        { council := "City of Edinburgh", population := 75000,
          wealth_factor := 16, weight := 16 }).share_pct = 74592 / 100 := by
      rw [mkRow_share_pct_spFun, hsalesB, spFun_adversarial]
    have hallocB : 74592 / 100 / 100 * (4299634500 / 233) - 1 / 2 ≤
        (mkRow "band_h" "Edinburgh Central"
          { council := "City of Edinburgh", population := 75000,
            wealth_factor := 16, weight := 16 }).allocated_revenue := by
      rw [mkRow_allocated_revenue, hspB, total_stock_revenue_eq]
      have h := pyRound_sub_abs (74592 / 100 / 100 * (4299634500 / 233)) 0
      rw [abs_le] at h
      have h1 := h.1
      norm_num at h1 ⊢
      linarith
    have hmem : (analyze_constituencies [] adversarialFactors "band_h").headI
        ∈ analyze_constituencies [] adversarialFactors "band_h" :=
      headI_mem_of_ne_nil (analyze_ne_nil [] adversarialFactors "band_h")
    have hsingle : (analyze_constituencies [] adversarialFactors
        "band_h").headI.allocated_revenue ≤
        ((analyze_constituencies [] adversarialFactors "band_h").map
          (fun r => r.allocated_revenue)).sum := by
      apply List.single_le_sum
      · intro x hx
        obtain ⟨row, hrow, rfl⟩ := List.mem_map.mp hx
        exact allocated_revenue_nonneg [] adversarialFactors "band_h" row hrow
      · exact List.mem_map_of_mem _ hmem
    have hhead : (analyze_constituencies [] adversarialFactors "band_h").headI
        = mkRow "band_h" "Edinburgh Central"
          { council := "City of Edinburgh", population := 75000,
            wealth_factor := 16, weight := 16 } := by
      rw [analyze_headI, hentryB]
    rw [hhead] at hsingle
    rw [total_stock_revenue_eq]
    calc (4299634500 / 233 : ℚ) + 4299634500 / 233 / 100
        < 74592 / 100 / 100 * (4299634500 / 233) - 1 / 2 := by norm_num
      _ ≤ (mkRow "band_h" "Edinburgh Central"
            { council := "City of Edinburgh", population := 75000,
              wealth_factor := 16, weight := 16 }).allocated_revenue := hallocB
      _ ≤ ((analyze_constituencies [] adversarialFactors "band_h").map
            (fun r => r.allocated_revenue)).sum := hsingle
